import Mathlib

/-!
Verification development for the code-analysis multi-agent system.

This file gives a shallow embedding, in Lean 4, of the core algorithms of the
repository (issue identity hashing, the issue ledger, the collaborator-response
parser, the specialist analyzers with their deduplication logic, the
orchestration routing, and the health-score aggregation), together with
theorems settling the behavioural claims about them.

Modelling conventions:
* Python machine integers are modelled as `Nat`/`Int` with explicit `% 2 ^ w`
  where overflow matters.
* Python strings are Lean `String`s; character-level work is done on `.data`.
* The filesystem under the issue ledger is modelled as the list of document
  paths present on disk (the byte content of a rendered markdown document is
  never consulted by any claim, so file bodies are not modelled).
* External collaborators (the LLM generation service, the regex engine used by
  the rule tables, the AST extractor, the file reader) are passed in as
  explicit oracles, exactly at the call boundaries the source uses.
-/

set_option maxHeartbeats 2000000
set_option maxRecDepth 8000

namespace CodeAnalysis

/-! ## Small helpers shared across the embedding -/

/-- Decimal digits of a natural number, most significant first (the fuel
argument makes the recursion structural; `n + 1` calls always suffice). -/
def natDigitsAux : Nat → Nat → List Char
  | 0, _ => []
  | fuel + 1, n =>
      if n < 10 then [Char.ofNat (48 + n)]
      else natDigitsAux fuel (n / 10) ++ [Char.ofNat (48 + n % 10)]

def natDigits (n : Nat) : List Char := natDigitsAux (n + 1) n

/-- Decimal rendering of an integer, as Python `str` renders an `int`. -/
def intStr (n : Int) : String :=
  if n < 0 then String.mk ('-' :: natDigits n.natAbs) else String.mk (natDigits n.natAbs)

theorem natDigits_ne_nil (n : Nat) : natDigits n ≠ [] := by
  unfold natDigits natDigitsAux
  split <;> simp

theorem intStr_ne_empty (n : Int) : intStr n ≠ "" := by
  unfold intStr
  split <;> intro h <;> have hd := String.data_eq_of_eq h <;> simp at hd
  exact natDigits_ne_nil _ hd

/-- Python `str.startswith`, on the underlying character lists. -/
def pyStartsWith (s p : String) : Bool :=
  decide (s.data.take p.data.length = p.data)

/-! ## SHA-256 over byte lists (FIPS 180-4), as used by `hashlib.sha256`

The issue id in `backend/models/issue.py` is
`hashlib.sha256(content.encode('utf-8')).hexdigest()[:12]`.  We embed SHA-256
as a pure function on byte lists, all 32-bit words carried as `Nat` reduced
`% 2 ^ 32`. -/

def M32 : Nat := 4294967296

/-- Rotate a 32-bit word right by `n` (for `x < 2 ^ 32`). -/
def rotr (x n : Nat) : Nat := (x / 2 ^ n + x % 2 ^ n * 2 ^ (32 - n)) % M32

/-- Logical right shift. -/
def shr (x n : Nat) : Nat := x / 2 ^ n

/-- 32-bit complement. -/
def compl32 (x : Nat) : Nat := x ^^^ (M32 - 1)

def smallSigma0 (x : Nat) : Nat := rotr x 7 ^^^ rotr x 18 ^^^ shr x 3
def smallSigma1 (x : Nat) : Nat := rotr x 17 ^^^ rotr x 19 ^^^ shr x 10
def bigSigma0 (x : Nat) : Nat := rotr x 2 ^^^ rotr x 13 ^^^ rotr x 22
def bigSigma1 (x : Nat) : Nat := rotr x 6 ^^^ rotr x 11 ^^^ rotr x 25
def chFn (e f g : Nat) : Nat := (e &&& f) ^^^ (compl32 e &&& g)
def majFn (a b c : Nat) : Nat := (a &&& b) ^^^ (a &&& c) ^^^ (b &&& c)

/-- The 64 SHA-256 round constants. -/
def Ksha : List Nat :=
  [1116352408, 1899447441, 3049323471, 3921009573, 961987163, 1508970993,
   2453635748, 2870763221, 3624381080, 310598401, 607225278, 1426881987,
   1925078388, 2162078206, 2614888103, 3248222580, 3835390401, 4022224774,
   264347078, 604807628, 770255983, 1249150122, 1555081692, 1996064986,
   2554220882, 2821834349, 2952996808, 3210313671, 3336571891, 3584528711,
   113926993, 338241895, 666307205, 773529912, 1294757372, 1396182291,
   1695183700, 1986661051, 2177026350, 2456956037, 2730485921, 2820302411,
   3259730800, 3345764771, 3516065817, 3600352804, 4094571909, 275423344,
   430227734, 506948616, 659060556, 883997877, 958139571, 1322822218,
   1537002063, 1747873779, 1955562222, 2024104815, 2227730452, 2361852424,
   2428436474, 2756734187, 3204031479, 3329325298]

/-- Working state: eight 32-bit words. -/
structure Hash8 where
  a : Nat
  b : Nat
  c : Nat
  d : Nat
  e : Nat
  f : Nat
  g : Nat
  h : Nat
deriving DecidableEq, Repr

def sha256Init : Hash8 :=
  ⟨0x6a09e667, 0xbb67ae85, 0x3c6ef372, 0xa54ff53a,
   0x510e527f, 0x9b05688c, 0x1f83d9ab, 0x5be0cd19⟩

/-- Extend the message schedule by one word. -/
def extendStep (w : List Nat) : List Nat :=
  let i := w.length
  w ++ [(smallSigma1 (w.getD (i - 2) 0) + w.getD (i - 7) 0 +
         smallSigma0 (w.getD (i - 15) 0) + w.getD (i - 16) 0) % M32]

/-- The 64-entry message schedule from the 16 block words. -/
def messageSchedule (w16 : List Nat) : List Nat := extendStep^[48] w16

/-- One compression round. -/
def round1 (s : Hash8) (kw : Nat × Nat) : Hash8 :=
  let t1 := (s.h + bigSigma1 s.e + chFn s.e s.f s.g + kw.1 + kw.2) % M32
  let t2 := (bigSigma0 s.a + majFn s.a s.b s.c) % M32
  ⟨(t1 + t2) % M32, s.a, s.b, s.c, (s.d + t1) % M32, s.e, s.f, s.g⟩

/-- The 16 big-endian 32-bit words of a 64-byte block. -/
def blockWords (block : List Nat) : List Nat :=
  (List.range 16).map fun i =>
    block.getD (4 * i) 0 * 16777216 + block.getD (4 * i + 1) 0 * 65536 +
    block.getD (4 * i + 2) 0 * 256 + block.getD (4 * i + 3) 0

/-- Add two working states word-wise modulo `2 ^ 32`. -/
def addWrap (s t : Hash8) : Hash8 :=
  ⟨(s.a + t.a) % M32, (s.b + t.b) % M32, (s.c + t.c) % M32, (s.d + t.d) % M32,
   (s.e + t.e) % M32, (s.f + t.f) % M32, (s.g + t.g) % M32, (s.h + t.h) % M32⟩

/-- Process one 64-byte block. -/
def processBlock (s : Hash8) (block : List Nat) : Hash8 :=
  addWrap s ((Ksha.zip (messageSchedule (blockWords block))).foldl round1 s)

/-- SHA-256 padding: append 0x80, zero bytes, and the 64-bit bit length. -/
def padMessage (msg : List Nat) : List Nat :=
  let len := msg.length
  let k := (119 - len % 64) % 64
  msg ++ [128] ++ List.replicate k 0 ++
    (List.range 8).map (fun i => len * 8 / 2 ^ (8 * (7 - i)) % 256)

/-- Split a byte list into 64-byte blocks. -/
def toBlocks : List Nat → List (List Nat)
  | [] => []
  | b :: rest => ((b :: rest).take 64) :: toBlocks ((b :: rest).drop 64)
termination_by l => l.length
decreasing_by simp [List.length_drop]; omega

/-- Assemble the eight final state words into the 256-bit digest value. -/
def digestOf (s : Hash8) : Nat :=
  ((((((s.a * M32 + s.b) * M32 + s.c) * M32 + s.d) * M32 + s.e) *
      M32 + s.f) * M32 + s.g) * M32 + s.h

/-- The SHA-256 digest of a byte list, as a 256-bit natural number. -/
def sha256Nat (msg : List Nat) : Nat :=
  digestOf ((toBlocks (padMessage msg)).foldl processBlock sha256Init)

/-- Hex digit character for a value in `0..15` (lowercase, as `hexdigest`). -/
def hexChar (n : Nat) : Char :=
  if n < 10 then Char.ofNat (48 + n) else Char.ofNat (87 + n)

/-- The 64-character lowercase hex rendering of a 256-bit digest
(`hashlib.sha256(...).hexdigest()`). -/
def hexDigest (d : Nat) : String :=
  String.mk ((List.range 64).map fun i => hexChar (d / 16 ^ (63 - i) % 16))

/-- UTF-8 encoding of a string as a byte list (`str.encode('utf-8')`). -/
def utf8Bytes (s : String) : List Nat :=
  s.toUTF8.toList.map (fun b => b.toNat)

/-- The hash preimage `f"{location}|{title}|{code_snippet}"` from `Issue.id`. -/
def hashContent (location title code_snippet : String) : String :=
  location ++ "|" ++ title ++ "|" ++ code_snippet

/-- The computed `Issue.id` property: first 12 hex characters of the SHA-256
digest of `location|title|code_snippet`. -/
def issueIdOf (location title code_snippet : String) : String :=
  String.mk ((hexDigest (sha256Nat (utf8Bytes
    (hashContent location title code_snippet)))).data.take 12)

/-! ### Boundedness of the digest -/

/-- All eight state words are below `2 ^ 32`. -/
def Hash8.Bounded (s : Hash8) : Prop :=
  s.a < M32 ∧ s.b < M32 ∧ s.c < M32 ∧ s.d < M32 ∧
  s.e < M32 ∧ s.f < M32 ∧ s.g < M32 ∧ s.h < M32

theorem M32_pos : 0 < M32 := by decide

theorem addWrap_bounded (s t : Hash8) : (addWrap s t).Bounded :=
  ⟨Nat.mod_lt _ M32_pos, Nat.mod_lt _ M32_pos, Nat.mod_lt _ M32_pos,
   Nat.mod_lt _ M32_pos, Nat.mod_lt _ M32_pos, Nat.mod_lt _ M32_pos,
   Nat.mod_lt _ M32_pos, Nat.mod_lt _ M32_pos⟩

theorem processBlock_bounded (s : Hash8) (block : List Nat) :
    (processBlock s block).Bounded :=
  addWrap_bounded s _

attribute [irreducible] messageSchedule blockWords round1 processBlock

theorem foldl_processBlock_bounded (l : List (List Nat)) (s : Hash8)
    (hs : s.Bounded) : (l.foldl processBlock s).Bounded := by
  induction l generalizing s with
  | nil => exact hs
  | cons b rest ih => exact ih _ (processBlock_bounded s b)

theorem sha256Init_bounded : Hash8.Bounded sha256Init := by
  refine ⟨?_, ?_, ?_, ?_, ?_, ?_, ?_, ?_⟩ <;> decide

theorem mul_add_bound {a b m : Nat} (ha : a < m) (hb : b < M32) :
    a * M32 + b < m * M32 := by
  calc a * M32 + b < a * M32 + M32 := by omega
    _ = (a + 1) * M32 := by ring
    _ ≤ m * M32 := Nat.mul_le_mul_right _ (by omega)

theorem digestOf_lt (s : Hash8) (hb : s.Bounded) : digestOf s < 2 ^ 256 := by
  obtain ⟨h1, h2, h3, h4, h5, h6, h7, h8⟩ := hb
  unfold digestOf
  have e : (2 : Nat) ^ 256 =
      ((((((M32 * M32) * M32) * M32) * M32) * M32) * M32) * M32 := by
    norm_num [M32]
  rw [e]
  exact mul_add_bound (mul_add_bound (mul_add_bound (mul_add_bound
    (mul_add_bound (mul_add_bound (mul_add_bound h1 h2) h3) h4) h5) h6) h7) h8

theorem sha256Nat_lt (msg : List Nat) : sha256Nat msg < 2 ^ 256 :=
  digestOf_lt _ (foldl_processBlock_bounded _ _ sha256Init_bounded)

/-! ### The first 12 hex characters are a function of the top 48 bits -/

theorem hexDigest_take12 (d : Nat) :
    (hexDigest d).data.take 12 =
      (List.range 12).map (fun i => hexChar (d / 2 ^ 208 / 16 ^ (11 - i) % 16)) := by
  show ((List.range 64).map fun i => hexChar (d / 16 ^ (63 - i) % 16)).take 12 = _
  rw [← List.map_take, List.take_range]
  rw [show min 12 64 = 12 by norm_num]
  apply List.map_congr_left
  intro i hi
  have hi12 : i < 12 := List.mem_range.mp hi
  congr 1
  have h63 : 63 - i = 52 + (11 - i) := by omega
  have h16 : (16 : Nat) ^ 52 = 2 ^ 208 := by norm_num
  rw [h63, pow_add, h16, ← Nat.div_div_eq_div_mul]

attribute [irreducible] padMessage sha256Nat hexDigest utf8Bytes

theorem issueIdOf_eq_of_top48 {l₁ l₂ t c : String}
    (h : sha256Nat (utf8Bytes (hashContent l₁ t c)) / 2 ^ 208 =
         sha256Nat (utf8Bytes (hashContent l₂ t c)) / 2 ^ 208) :
    issueIdOf l₁ t c = issueIdOf l₂ t c := by
  unfold issueIdOf
  congr 1
  rw [hexDigest_take12, hexDigest_take12, h]

/-! ## The Issue data model (`backend/models/issue.py`)

`RiskLevel` and `IssueType` are the two `str` enums; `Issue` is the pydantic
model.  `created_at` is an opaque timestamp string (`datetime` is not
modelled); the pydantic length validators play no role in the claims. -/

inductive RiskLevel where
  | critical
  | high
  | medium
  | low
deriving DecidableEq, Repr

/-- The `str` value of a `RiskLevel` member. -/
def RiskLevel.value : RiskLevel → String
  | .critical => "critical"
  | .high => "high"
  | .medium => "medium"
  | .low => "low"

inductive IssueType where
  | security
  | performance
  | architecture
deriving DecidableEq, Repr

/-- The `str` value of an `IssueType` member. -/
def IssueType.value : IssueType → String
  | .security => "security"
  | .performance => "performance"
  | .architecture => "architecture"

/-- The `Issue` pydantic model (`backend/models/issue.py`). -/
structure Issue where
  location : String
  type : IssueType
  risk_level : RiskLevel
  title : String
  description : String
  code_snippet : String
  solution : String
  related_issues : Option (List String)
  author : Option String
  created_at : String
deriving DecidableEq, Repr

/-- The computed `id` field of an `Issue`. -/
def Issue.id (i : Issue) : String :=
  issueIdOf i.location i.title i.code_snippet

/-- A serialized issue record, as stored in `index.json` by `Issue.to_dict`. -/
structure IssueDict where
  id : String
  location : String
  type : String
  risk_level : String
  title : String
  description : String
  code_snippet : String
  solution : String
  related_issues : Option (List String)
  author : Option String
  created_at : String
deriving DecidableEq, Repr

/-- `Issue.to_dict`: the serialized dictionary form of an issue. -/
def Issue.toDict (i : Issue) : IssueDict :=
  ⟨i.id, i.location, i.type.value, i.risk_level.value, i.title, i.description,
   i.code_snippet, i.solution, i.related_issues, i.author, i.created_at⟩

/-! ## The IssueStore ledger (`backend/models/issue.py`)

The on-disk state is the index (`index.json`, an ordered list of serialized
records) plus the set of rendered document paths
`{base}/{type}/{risk_level}/{id}.md`.  A document path is the triple
(type, risk_level, id); file bodies and the legacy flat layout
`{base}/{id}.md` (written by no current code path) are not modelled, nor is
directory pruning, which only affects empty directories. -/

/-- A hierarchical document path `{type}/{risk_level}/{id}.md`. -/
structure DocPath where
  ptype : String
  prisk : String
  pid : String
deriving DecidableEq, Repr

/-- The ledger state: the parsed `index.json` plus the documents on disk. -/
structure LedgerState where
  index : List IssueDict
  docs : List DocPath
deriving DecidableEq, Repr

/-- The document path recorded for an index entry. -/
def entryPath (e : IssueDict) : DocPath := ⟨e.type, e.risk_level, e.id⟩

/-- Writing a document file: creates it if absent, otherwise overwrites in
place (the path set is unchanged). -/
def writeDoc (docs : List DocPath) (p : DocPath) : List DocPath :=
  if p ∈ docs then docs else docs ++ [p]

/-- `Path.unlink` guarded by `path.exists()`: remove the path if present. -/
def unlinkDoc (docs : List DocPath) (p : DocPath) : List DocPath :=
  docs.filter (fun q => q ≠ p)

/-- `IssueStore.save`: write the rendered document at
`{type}/{risk_level}/{id}.md`, delete the old document when the same id was
indexed under a different type/risk pair, replace the index entry, and
return the new state together with the written path. -/
def ledgerSave (s : LedgerState) (issue : Issue) : LedgerState × DocPath :=
  let issue_type := issue.type.value
  let risk_level := issue.risk_level.value
  let md_path : DocPath := ⟨issue_type, risk_level, issue.id⟩
  let docs1 := writeDoc s.docs md_path
  let old_entry := s.index.find? (fun e => e.id == issue.id)
  let docs2 := match old_entry with
    | some old =>
        if old.type ≠ issue_type ∨ old.risk_level ≠ risk_level then
          unlinkDoc docs1 ⟨old.type, old.risk_level, issue.id⟩
        else docs1
    | none => docs1
  let index2 := match old_entry with
    | some _ => s.index.filter (fun e => e.id ≠ issue.id)
    | none => s.index
  (⟨index2 ++ [issue.toDict], docs2⟩, md_path)

/-- `IssueStore.get_by_id`: the first index entry with the given id. -/
def ledgerGetById (s : LedgerState) (issue_id : String) : Option IssueDict :=
  s.index.find? (fun e => e.id == issue_id)

/-- `IssueStore.get_all`: the index. -/
def ledgerGetAll (s : LedgerState) : List IssueDict := s.index

/-- `IssueStore.count`: the number of index entries. -/
def ledgerCount (s : LedgerState) : Nat := s.index.length

/-- `IssueStore.delete`: remove the first entry with the given id from the
index and unlink its recorded document (guarded, as in the source, by the
entry having non-empty type and risk strings). -/
def ledgerDelete (s : LedgerState) (issue_id : String) : LedgerState × Bool :=
  match s.index.find? (fun e => e.id == issue_id) with
  | none => (s, false)
  | some e =>
      let index2 := s.index.filter (fun x => x.id ≠ issue_id)
      let docs2 :=
        if e.type ≠ "" ∧ e.risk_level ≠ "" then
          unlinkDoc s.docs ⟨e.type, e.risk_level, issue_id⟩
        else s.docs
      (⟨index2, docs2⟩, true)

/-- `IssueStore.clear`: unlink every indexed document, then reset the index;
returns the number of entries removed. -/
def ledgerClear (s : LedgerState) : LedgerState × Nat :=
  let docs2 := s.index.foldl
    (fun d e =>
      if e.type ≠ "" ∧ e.risk_level ≠ "" then unlinkDoc d (entryPath e) else d)
    s.docs
  (⟨[], docs2⟩, s.index.length)

/-- An empty ledger directory. -/
def emptyLedger : LedgerState := ⟨[], []⟩

/-- Index entries produced by this system carry enum values in their type and
risk fields. -/
def WfEntry (e : IssueDict) : Prop :=
  e.type ∈ ["security", "performance", "architecture"] ∧
  e.risk_level ∈ ["critical", "high", "medium", "low"]

/-- The ledger consistency invariant: entries are well-formed, every index
entry's recorded (type, risk) pair has its document on disk, every document
on disk is recorded by exactly one index entry, and no id occurs twice in
the index. -/
def Consistent (s : LedgerState) : Prop :=
  (∀ e ∈ s.index, WfEntry e) ∧
  (∀ e ∈ s.index, entryPath e ∈ s.docs) ∧
  (∀ p ∈ s.docs, ∃! e, e ∈ s.index ∧ entryPath e = p) ∧
  s.index.Pairwise (fun a b => a.id ≠ b.id)

/-! ### Ledger lemmas -/

theorem mem_writeDoc_self (docs : List DocPath) (p : DocPath) :
    p ∈ writeDoc docs p := by
  unfold writeDoc
  split
  · assumption
  · simp

theorem mem_writeDoc_iff {docs : List DocPath} {p q : DocPath} :
    q ∈ writeDoc docs p ↔ q ∈ docs ∨ q = p := by
  unfold writeDoc
  split
  · constructor
    · exact fun h => Or.inl h
    · rintro (h | rfl) <;> assumption
  · simp

theorem mem_unlinkDoc {docs : List DocPath} {p q : DocPath} :
    q ∈ unlinkDoc docs p ↔ q ∈ docs ∧ q ≠ p := by
  unfold unlinkDoc
  simp

theorem find?_append_none {α : Type} (p : α → Bool) (l₁ l₂ : List α)
    (h : l₁.find? p = none) : (l₁ ++ l₂).find? p = l₂.find? p := by
  induction l₁ with
  | nil => rfl
  | cons a l ih =>
      have hall := List.find?_eq_none.mp h
      rw [List.cons_append, List.find?_cons_of_neg _ (hall a (by simp))]
      exact ih (List.find?_eq_none.mpr fun x hx => hall x (by simp [hx]))

/-- `Issue.to_dict` stores the computed id. -/
theorem toDict_id (i : Issue) : i.toDict.id = i.id := rfl

theorem toDict_type (i : Issue) : i.toDict.type = i.type.value := rfl

theorem toDict_risk (i : Issue) : i.toDict.risk_level = i.risk_level.value := rfl

/-- In a duplicate-free index, any member whose id matches the id of a
member found by `find?` is that member. -/
theorem unique_of_pairwise {l : List IssueDict}
    (hp : l.Pairwise (fun a b => a.id ≠ b.id)) {a b : IssueDict}
    (ha : a ∈ l) (hb : b ∈ l) (hid : a.id = b.id) : a = b := by
  by_contra hne
  induction l with
  | nil => cases ha
  | cons x xs ih =>
      rcases List.pairwise_cons.mp hp with ⟨hx, hxs⟩
      rcases List.mem_cons.mp ha with rfl | ha'
      · rcases List.mem_cons.mp hb with rfl | hb'
        · exact hne rfl
        · exact hx _ hb' hid
      · rcases List.mem_cons.mp hb with rfl | hb'
        · exact hx _ ha' hid.symm
        · exact ih hxs ha' hb'

/-- The new index after `save` is a prefix of old entries whose ids differ
from the saved issue's id, followed by the saved record; the returned path is
`{type}/{risk}/{id}`; and that path is on disk afterwards. -/
theorem ledgerSave_spec (s : LedgerState) (i : Issue) :
    (ledgerSave s i).2 = ⟨i.type.value, i.risk_level.value, i.id⟩ ∧
    (∃ pre, (ledgerSave s i).1.index = pre ++ [i.toDict] ∧
      ∀ e ∈ pre, e.id ≠ i.id ∧ e ∈ s.index) ∧
    (⟨i.type.value, i.risk_level.value, i.id⟩ : DocPath) ∈
      (ledgerSave s i).1.docs := by
  unfold ledgerSave
  cases hfind : s.index.find? (fun e => e.id == i.id) with
  | none =>
      refine ⟨rfl, ⟨s.index, rfl, ?_⟩, ?_⟩
      · intro e he
        have := List.find?_eq_none.mp hfind e he
        simp only [beq_iff_eq] at this
        exact ⟨this, he⟩
      · exact mem_writeDoc_self _ _
  | some old =>
      refine ⟨rfl, ⟨s.index.filter (fun e => e.id ≠ i.id), rfl, ?_⟩, ?_⟩
      · intro e he
        refine ⟨by simpa using (List.of_mem_filter he), List.mem_of_mem_filter he⟩
      · simp only
        split
        · next hcond =>
            rw [mem_unlinkDoc]
            refine ⟨mem_writeDoc_self _ _, ?_⟩
            intro hEq
            rw [DocPath.mk.injEq] at hEq
            rcases hcond with h | h
            · exact h hEq.1.symm
            · exact h hEq.2.1.symm
        · exact mem_writeDoc_self _ _

/-- `get_by_id` on a freshly saved ledger returns the saved record. -/
theorem ledgerSave_getById (s : LedgerState) (i : Issue) :
    ledgerGetById (ledgerSave s i).1 i.id = some i.toDict := by
  obtain ⟨-, ⟨pre, hidx, hpre⟩, -⟩ := ledgerSave_spec s i
  unfold ledgerGetById
  rw [hidx, find?_append_none]
  · rw [List.find?_cons_of_pos]
    simp [toDict_id]
  · rw [List.find?_eq_none]
    intro e he
    simp only [beq_iff_eq]
    exact (hpre e he).1

/-- Saving an issue into a state that already holds exactly its record (last)
and its document leaves the state unchanged. -/
theorem ledgerSave_shape (pre : List IssueDict) (docs : List DocPath) (i : Issue)
    (hdocs : (⟨i.type.value, i.risk_level.value, i.id⟩ : DocPath) ∈ docs)
    (hpre : ∀ e ∈ pre, e.id ≠ i.id) :
    ledgerSave ⟨pre ++ [i.toDict], docs⟩ i =
      (⟨pre ++ [i.toDict], docs⟩, ⟨i.type.value, i.risk_level.value, i.id⟩) := by
  have hfind : (pre ++ [i.toDict]).find? (fun e => e.id == i.id) =
      some i.toDict := by
    rw [find?_append_none]
    · rw [List.find?_cons_of_pos]
      simp [toDict_id]
    · rw [List.find?_eq_none]
      intro e he
      simp only [beq_iff_eq]
      exact hpre e he
  have hfilter : (pre ++ [i.toDict]).filter (fun e => e.id ≠ i.id) = pre := by
    rw [List.filter_append]
    have h1 : pre.filter (fun e => e.id ≠ i.id) = pre :=
      List.filter_eq_self.mpr (fun e he => by simpa using hpre e he)
    have h2 : [i.toDict].filter (fun e => e.id ≠ i.id) = [] := by
      simp [toDict_id]
    rw [h1, h2, List.append_nil]
  have hwrite : writeDoc docs (⟨i.type.value, i.risk_level.value, i.id⟩ : DocPath)
      = docs := by
    unfold writeDoc
    rw [if_pos hdocs]
  unfold ledgerSave
  simp only [hwrite, hfind, hfilter]
  rw [if_neg]
  push_neg
  exact ⟨rfl, rfl⟩

/-- Saving the same issue a second time is a no-op on the ledger state, and
returns the same document path. -/
theorem ledgerSave_idem (s : LedgerState) (i : Issue) :
    ledgerSave (ledgerSave s i).1 i = ledgerSave s i := by
  obtain ⟨hpath, ⟨pre, hidx, hpre⟩, hmd⟩ := ledgerSave_spec s i
  have h1 : (ledgerSave s i).1 =
      ⟨pre ++ [i.toDict], (ledgerSave s i).1.docs⟩ := by
    conv_lhs => rw [show (ledgerSave s i).1 =
      (⟨(ledgerSave s i).1.index, (ledgerSave s i).1.docs⟩ : LedgerState) from rfl]
    rw [hidx]
  calc ledgerSave (ledgerSave s i).1 i
      = ledgerSave ⟨pre ++ [i.toDict], (ledgerSave s i).1.docs⟩ i := by rw [← h1]
    _ = (⟨pre ++ [i.toDict], (ledgerSave s i).1.docs⟩,
          ⟨i.type.value, i.risk_level.value, i.id⟩) :=
        ledgerSave_shape pre _ i hmd (fun e he => (hpre e he).1)
    _ = ledgerSave s i := by rw [← h1, ← hpath]

theorem WfEntry_toDict (i : Issue) : WfEntry i.toDict := by
  obtain ⟨l, ty, rk, ti, de, cs, so, ri, au, ca⟩ := i
  constructor
  · cases ty <;> simp [Issue.toDict, IssueType.value, WfEntry]
  · cases rk <;> simp [Issue.toDict, RiskLevel.value, WfEntry]

theorem entryPath_toDict (i : Issue) :
    entryPath i.toDict = ⟨i.type.value, i.risk_level.value, i.id⟩ := rfl

theorem WfEntry.type_ne_empty {e : IssueDict} (h : WfEntry e) : e.type ≠ "" := by
  have h1 := h.1
  simp only [List.mem_cons, List.not_mem_nil, or_false] at h1
  rcases h1 with h' | h' | h' <;> rw [h'] <;> decide

theorem WfEntry.risk_ne_empty {e : IssueDict} (h : WfEntry e) :
    e.risk_level ≠ "" := by
  have h2 := h.2
  simp only [List.mem_cons, List.not_mem_nil, or_false] at h2
  rcases h2 with h' | h' | h' | h' <;> rw [h'] <;> decide

/-- Ids agreeing forces path agreement to force entry agreement, via the
pid component of a document path. -/
theorem id_eq_of_entryPath_eq {a b : IssueDict} (h : entryPath a = entryPath b) :
    a.id = b.id := congrArg DocPath.pid h

/-- `save` preserves the ledger consistency invariant. -/
theorem ledgerSave_consistent (s : LedgerState) (i : Issue)
    (hc : Consistent s) : Consistent (ledgerSave s i).1 := by
  obtain ⟨hwf, hed, hde, hpw⟩ := hc
  have huniq : ∀ e ∈ s.index, e.id = i.id → ∀ e' ∈ s.index, e'.id = i.id →
      e = e' := fun e he hei e' he' hei' =>
    unique_of_pairwise hpw he he' (hei.trans hei'.symm)
  cases hfind : s.index.find? (fun e => e.id == i.id) with
  | none =>
      have hnone : ∀ e ∈ s.index, e.id ≠ i.id := fun e he => by
        have := List.find?_eq_none.mp hfind e he
        simpa using this
      simp only [ledgerSave, hfind]
      refine ⟨?_, ?_, ?_, ?_⟩
      · intro e he
        rcases List.mem_append.mp he with h | h
        · exact hwf e h
        · rw [List.mem_singleton.mp h]
          exact WfEntry_toDict i
      · intro e he
        rcases List.mem_append.mp he with h | h
        · exact mem_writeDoc_iff.mpr (Or.inl (hed e h))
        · rw [List.mem_singleton.mp h, entryPath_toDict]
          exact mem_writeDoc_self _ _
      · intro p hp
        by_cases hps : p ∈ s.docs
        · obtain ⟨ep, ⟨hep_mem, hep_path⟩, hep_uni⟩ := hde p hps
          refine ⟨ep, ⟨List.mem_append.mpr (Or.inl hep_mem), hep_path⟩, ?_⟩
          rintro e' ⟨he', hpath'⟩
          rcases List.mem_append.mp he' with h | h
          · exact hep_uni e' ⟨h, hpath'⟩
          · exfalso
            rw [List.mem_singleton.mp h, entryPath_toDict] at hpath'
            have : ep.id = i.id := by
              have h1 : entryPath ep = (⟨i.type.value, i.risk_level.value,
                i.id⟩ : DocPath) := hep_path.trans hpath'.symm
              exact congrArg DocPath.pid h1
            exact hnone ep hep_mem this
        · have hpmd : p = ⟨i.type.value, i.risk_level.value, i.id⟩ := by
            rcases mem_writeDoc_iff.mp hp with h | h
            · exact absurd h hps
            · exact h
          refine ⟨i.toDict, ⟨List.mem_append.mpr (Or.inr (by simp)),
            by rw [entryPath_toDict, hpmd]⟩, ?_⟩
          rintro e' ⟨he', hpath'⟩
          rcases List.mem_append.mp he' with h | h
          · exfalso
            have : e'.id = i.id := by
              rw [hpmd] at hpath'
              exact congrArg DocPath.pid hpath'
            exact hnone e' h this
          · exact List.mem_singleton.mp h
      · rw [List.pairwise_append]
        refine ⟨hpw, List.pairwise_singleton _ _, ?_⟩
        intro a ha b hb
        rw [List.mem_singleton.mp hb, toDict_id]
        exact hnone a ha
  | some old =>
      have hold_mem : old ∈ s.index := List.mem_of_find?_eq_some hfind
      have hold_id : old.id = i.id := by
        have := List.find?_some hfind
        simpa using this
      have hfmem : ∀ {e : IssueDict},
          e ∈ s.index.filter (fun e => e.id ≠ i.id) ↔
            e ∈ s.index ∧ e.id ≠ i.id := by
        intro e
        simp [List.mem_filter]
      have heq_old : ∀ e ∈ s.index, e.id = i.id → e = old := fun e he hei =>
        huniq e he hei old hold_mem hold_id
      simp only [ledgerSave, hfind]
      by_cases hcond : old.type ≠ i.type.value ∨
          old.risk_level ≠ i.risk_level.value
      · rw [if_pos hcond]
        have holdPath : entryPath old =
            ⟨old.type, old.risk_level, i.id⟩ := by
          rw [entryPath, hold_id]
        have hopmd : (⟨old.type, old.risk_level, i.id⟩ : DocPath) ≠
            ⟨i.type.value, i.risk_level.value, i.id⟩ := by
          intro h
          rw [DocPath.mk.injEq] at h
          rcases hcond with h' | h' <;> simp_all
        refine ⟨?_, ?_, ?_, ?_⟩
        · intro e he
          rcases List.mem_append.mp he with h | h
          · exact hwf e (hfmem.mp h).1
          · rw [List.mem_singleton.mp h]
            exact WfEntry_toDict i
        · intro e he
          rcases List.mem_append.mp he with h | h
          · obtain ⟨hes, hne⟩ := hfmem.mp h
            rw [mem_unlinkDoc]
            refine ⟨mem_writeDoc_iff.mpr (Or.inl (hed e hes)), ?_⟩
            intro hpe
            exact hne (congrArg DocPath.pid hpe)
          · rw [List.mem_singleton.mp h, entryPath_toDict, mem_unlinkDoc]
            exact ⟨mem_writeDoc_self _ _, Ne.symm hopmd⟩
        · intro p hp
          rw [mem_unlinkDoc] at hp
          obtain ⟨hp1, hpold⟩ := hp
          by_cases hpmd : p = ⟨i.type.value, i.risk_level.value, i.id⟩
          · refine ⟨i.toDict, ⟨List.mem_append.mpr (Or.inr (by simp)),
              by rw [entryPath_toDict, hpmd]⟩, ?_⟩
            rintro e' ⟨he', hpath'⟩
            rcases List.mem_append.mp he' with h | h
            · exfalso
              obtain ⟨hes, hne⟩ := hfmem.mp h
              rw [hpmd] at hpath'
              exact hne (congrArg DocPath.pid hpath')
            · exact List.mem_singleton.mp h
          · have hps : p ∈ s.docs := by
              rcases mem_writeDoc_iff.mp hp1 with h | h
              · exact h
              · exact absurd h hpmd
            obtain ⟨ep, ⟨hep_mem, hep_path⟩, hep_uni⟩ := hde p hps
            have hep_ne : ep.id ≠ i.id := by
              intro hei
              have : ep = old := heq_old ep hep_mem hei
              rw [this, holdPath] at hep_path
              exact hpold hep_path.symm
            refine ⟨ep, ⟨List.mem_append.mpr (Or.inl (hfmem.mpr
              ⟨hep_mem, hep_ne⟩)), hep_path⟩, ?_⟩
            rintro e' ⟨he', hpath'⟩
            rcases List.mem_append.mp he' with h | h
            · exact hep_uni e' ⟨(hfmem.mp h).1, hpath'⟩
            · exfalso
              rw [List.mem_singleton.mp h, entryPath_toDict] at hpath'
              exact hpmd hpath'.symm
        · rw [List.pairwise_append]
          refine ⟨hpw.filter _, List.pairwise_singleton _ _, ?_⟩
          intro a ha b hb
          rw [List.mem_singleton.mp hb, toDict_id]
          exact (hfmem.mp ha).2
      · rw [if_neg hcond]
        push_neg at hcond
        have holdPath : entryPath old =
            ⟨i.type.value, i.risk_level.value, i.id⟩ := by
          rw [entryPath, hold_id, hcond.1, hcond.2]
        refine ⟨?_, ?_, ?_, ?_⟩
        · intro e he
          rcases List.mem_append.mp he with h | h
          · exact hwf e (hfmem.mp h).1
          · rw [List.mem_singleton.mp h]
            exact WfEntry_toDict i
        · intro e he
          rcases List.mem_append.mp he with h | h
          · exact mem_writeDoc_iff.mpr (Or.inl (hed e (hfmem.mp h).1))
          · rw [List.mem_singleton.mp h, entryPath_toDict]
            exact mem_writeDoc_self _ _
        · intro p hp
          by_cases hpmd : p = ⟨i.type.value, i.risk_level.value, i.id⟩
          · refine ⟨i.toDict, ⟨List.mem_append.mpr (Or.inr (by simp)),
              by rw [entryPath_toDict, hpmd]⟩, ?_⟩
            rintro e' ⟨he', hpath'⟩
            rcases List.mem_append.mp he' with h | h
            · exfalso
              obtain ⟨hes, hne⟩ := hfmem.mp h
              rw [hpmd] at hpath'
              exact hne (congrArg DocPath.pid hpath')
            · exact List.mem_singleton.mp h
          · have hps : p ∈ s.docs := by
              rcases mem_writeDoc_iff.mp hp with h | h
              · exact h
              · exact absurd h hpmd
            obtain ⟨ep, ⟨hep_mem, hep_path⟩, hep_uni⟩ := hde p hps
            have hep_ne : ep.id ≠ i.id := by
              intro hei
              have : ep = old := heq_old ep hep_mem hei
              rw [this, holdPath] at hep_path
              exact hpmd hep_path.symm
            refine ⟨ep, ⟨List.mem_append.mpr (Or.inl (hfmem.mpr
              ⟨hep_mem, hep_ne⟩)), hep_path⟩, ?_⟩
            rintro e' ⟨he', hpath'⟩
            rcases List.mem_append.mp he' with h | h
            · exact hep_uni e' ⟨(hfmem.mp h).1, hpath'⟩
            · exfalso
              rw [List.mem_singleton.mp h, entryPath_toDict] at hpath'
              exact hpmd hpath'.symm
        · rw [List.pairwise_append]
          refine ⟨hpw.filter _, List.pairwise_singleton _ _, ?_⟩
          intro a ha b hb
          rw [List.mem_singleton.mp hb, toDict_id]
          exact (hfmem.mp ha).2

/-- When an index entry with the saved id exists under a different
type/risk pair, `save` deletes the old document and drops the old entry. -/
theorem ledgerSave_removes_old (s : LedgerState) (i : Issue) (old : IssueDict)
    (hc : Consistent s) (hmem : old ∈ s.index) (hid : old.id = i.id)
    (hdiff : old.type ≠ i.type.value ∨ old.risk_level ≠ i.risk_level.value) :
    entryPath old ∉ (ledgerSave s i).1.docs ∧ old ∉ (ledgerSave s i).1.index := by
  obtain ⟨hwf, hed, hde, hpw⟩ := hc
  cases hfind : s.index.find? (fun e => e.id == i.id) with
  | none =>
      exfalso
      have := List.find?_eq_none.mp hfind old hmem
      simp [hid] at this
  | some e0 =>
      have he0_mem : e0 ∈ s.index := List.mem_of_find?_eq_some hfind
      have he0_id : e0.id = i.id := by
        have := List.find?_some hfind
        simpa using this
      have he0 : e0 = old :=
        unique_of_pairwise hpw he0_mem hmem (he0_id.trans hid.symm)
      subst he0
      have hcond : e0.type ≠ i.type.value ∨
          e0.risk_level ≠ i.risk_level.value := hdiff
      simp only [ledgerSave, hfind, if_pos hcond]
      constructor
      · rw [mem_unlinkDoc]
        rintro ⟨-, hne⟩
        apply hne
        rw [entryPath, hid]
      · intro hmem'
        rcases List.mem_append.mp hmem' with h | h
        · have := (List.mem_filter.mp h).2
          simp [hid] at this
        · rw [List.mem_singleton.mp h] at hdiff
          rcases hdiff with h' | h' <;> simp [Issue.toDict] at h'

/-- `delete` preserves the ledger consistency invariant. -/
theorem ledgerDelete_consistent (s : LedgerState) (issue_id : String)
    (hc : Consistent s) : Consistent (ledgerDelete s issue_id).1 := by
  obtain ⟨hwf, hed, hde, hpw⟩ := hc
  cases hfind : s.index.find? (fun e => e.id == issue_id) with
  | none =>
      simp only [ledgerDelete, hfind]
      exact ⟨hwf, hed, hde, hpw⟩
  | some e0 =>
      have he0_mem : e0 ∈ s.index := List.mem_of_find?_eq_some hfind
      have he0_id : e0.id = issue_id := by
        have := List.find?_some hfind
        simpa using this
      have hguard : e0.type ≠ "" ∧ e0.risk_level ≠ "" :=
        ⟨(hwf e0 he0_mem).type_ne_empty, (hwf e0 he0_mem).risk_ne_empty⟩
      have hfmem : ∀ {e : IssueDict},
          e ∈ s.index.filter (fun x => x.id ≠ issue_id) ↔
            e ∈ s.index ∧ e.id ≠ issue_id := by
        intro e
        simp [List.mem_filter]
      have hpth : (⟨e0.type, e0.risk_level, issue_id⟩ : DocPath) =
          entryPath e0 := by
        rw [entryPath, he0_id]
      simp only [ledgerDelete, hfind, if_pos hguard, hpth]
      refine ⟨?_, ?_, ?_, hpw.filter _⟩
      · intro e he
        exact hwf e (hfmem.mp he).1
      · intro e he
        obtain ⟨hes, hne⟩ := hfmem.mp he
        rw [mem_unlinkDoc]
        refine ⟨hed e hes, ?_⟩
        intro hpe
        apply hne
        have h3 : e.id = e0.id := congrArg DocPath.pid hpe
        rw [h3, he0_id]
      · intro p hp
        rw [mem_unlinkDoc] at hp
        obtain ⟨hps, hpne⟩ := hp
        obtain ⟨ep, ⟨hep_mem, hep_path⟩, hep_uni⟩ := hde p hps
        have hep_ne : ep.id ≠ issue_id := by
          intro hei
          have h4 : ep = e0 :=
            unique_of_pairwise hpw hep_mem he0_mem (hei.trans he0_id.symm)
          rw [h4] at hep_path
          exact hpne hep_path.symm
        refine ⟨ep, ⟨hfmem.mpr ⟨hep_mem, hep_ne⟩, hep_path⟩, ?_⟩
        rintro e' ⟨he', hpath'⟩
        exact hep_uni e' ⟨(hfmem.mp he').1, hpath'⟩

/-- Documents surviving the unlink fold of `clear` were present initially and
match no guarded entry's path. -/
theorem mem_clear_fold (l : List IssueDict) (d : List DocPath) (q : DocPath)
    (hq : q ∈ l.foldl
      (fun acc e =>
        if e.type ≠ "" ∧ e.risk_level ≠ "" then unlinkDoc acc (entryPath e)
        else acc) d) :
    q ∈ d ∧ ∀ e ∈ l, e.type ≠ "" → e.risk_level ≠ "" → q ≠ entryPath e := by
  induction l generalizing d with
  | nil => exact ⟨hq, by simp⟩
  | cons x xs ih =>
      rw [List.foldl_cons] at hq
      obtain ⟨hq1, hq2⟩ := ih _ hq
      by_cases hx : x.type ≠ "" ∧ x.risk_level ≠ ""
      · rw [if_pos hx, mem_unlinkDoc] at hq1
        refine ⟨hq1.1, ?_⟩
        intro e he h1 h2
        rcases List.mem_cons.mp he with rfl | he'
        · exact hq1.2
        · exact hq2 e he' h1 h2
      · rw [if_neg hx] at hq1
        refine ⟨hq1, ?_⟩
        intro e he h1 h2
        rcases List.mem_cons.mp he with rfl | he'
        · exact absurd ⟨h1, h2⟩ hx
        · exact hq2 e he' h1 h2

/-- On a consistent ledger, `clear` empties both the index and the documents
on disk, and reports the old entry count; consistency holds trivially
afterwards. -/
theorem ledgerClear_consistent (s : LedgerState) (hc : Consistent s) :
    (ledgerClear s).1.index = [] ∧ (ledgerClear s).1.docs = [] ∧
    (ledgerClear s).2 = ledgerCount s ∧ Consistent (ledgerClear s).1 := by
  obtain ⟨hwf, hed, hde, hpw⟩ := hc
  have hdocs : (ledgerClear s).1.docs = [] := by
    rw [List.eq_nil_iff_forall_not_mem]
    intro q hq
    obtain ⟨hqd, hqne⟩ := mem_clear_fold s.index s.docs q hq
    obtain ⟨ep, ⟨hep_mem, hep_path⟩, -⟩ := hde q hqd
    exact hqne ep hep_mem (hwf ep hep_mem).type_ne_empty
      (hwf ep hep_mem).risk_ne_empty hep_path.symm
  refine ⟨rfl, hdocs, rfl, ?_, ?_, ?_, ?_⟩
  · intro e he
    cases he
  · intro e he
    cases he
  · intro p hp
    rw [hdocs] at hp
    cases hp
  · exact List.Pairwise.nil

/-! ## Python-ish string helpers

`str.replace`, `str.strip`, `str.lower`, `str.capitalize`, `int(str)` and
friends, modelled over ASCII (the unicode-aware corners of those Python
builtins play no role in the claims). -/

/-- The whitespace class used by `str.strip` and by the regex `\s`
(ASCII part). -/
def isPyWs (c : Char) : Bool :=
  c = ' ' ∨ c = '\t' ∨ c = '\n' ∨ c = '\r' ∨ c = Char.ofNat 11 ∨ c = Char.ofNat 12

/-- `str.strip()`. -/
def pyStrip (s : String) : String :=
  String.mk (((s.data.dropWhile isPyWs).reverse.dropWhile isPyWs).reverse)

/-- `str.lower()` (ASCII). -/
def pyLower (s : String) : String := String.mk (s.data.map Char.toLower)

/-- `str.capitalize()` (ASCII). -/
def pyCapitalize (s : String) : String :=
  match s.data with
  | [] => ""
  | c :: rest => String.mk (c.toUpper :: rest.map Char.toLower)

/-- Python string slicing `s[:n]` (first `n` characters). -/
def takeChars (n : Nat) (s : String) : String := String.mk (s.data.take n)

/-- One replacement pass of `str.replace` for a non-empty pattern
`p0 :: prest`: left-to-right, non-overlapping, resuming after each
replacement.  The fuel argument makes the recursion structural; at least
one input character is consumed per call, so `length + 1` fuel suffices. -/
def replaceAux (p0 : Char) (prest rep : List Char) : Nat → List Char → List Char
  | 0, cs => cs
  | _ + 1, [] => []
  | fuel + 1, c :: rest =>
      if c = p0 ∧ rest.take prest.length = prest then
        rep ++ replaceAux p0 prest rep fuel (rest.drop prest.length)
      else
        c :: replaceAux p0 prest rep fuel rest

/-- `str.replace(pat, rep)` (for the empty pattern Python would interleave
`rep` everywhere; no call site uses an empty pattern, and we return `s`). -/
def pyReplace (s pat rep : String) : String :=
  match pat.data with
  | [] => s
  | p0 :: prest =>
      String.mk (replaceAux p0 prest rep.data (s.data.length + 1) s.data)

/-- `int(str)`: optional surrounding whitespace, an optional sign, then
decimal digits (Python's underscore grouping is out of model). `none` models
`ValueError`. -/
def digitsToNat? (cs : List Char) : Option Nat :=
  if cs ≠ [] ∧ cs.all (fun c => c.isDigit) then
    some (cs.foldl (fun acc c => acc * 10 + (c.toNat - 48)) 0)
  else none

def pyIntChars : List Char → Option Int
  | [] => none
  | c :: ds =>
      if c = '-' then (digitsToNat? ds).map (fun n : Nat => -(n : Int))
      else if c = '+' then (digitsToNat? ds).map (fun n : Nat => (n : Int))
      else (digitsToNat? (c :: ds)).map (fun n : Nat => (n : Int))

def pyIntOfString (s : String) : Option Int :=
  pyIntChars (((s.data.dropWhile isPyWs).reverse.dropWhile isPyWs).reverse)

/-- Substring containment (`needle in haystack` on Python strings). -/
def containsSub (needle : List Char) : List Char → Bool
  | [] => needle.isEmpty
  | c :: rest =>
      if (c :: rest).take needle.length = needle then true
      else containsSub needle rest

/-! ## JSON values and `json.loads` (Python's strict JSON parser)

JSON numbers are modelled as integers: a fractional or exponent part is
consumed but its value truncated to the integer part (no claim input carries
a non-integer number).  Strict behaviours that the source's sanitising tier
relies on are modelled: raw control characters inside strings and trailing
commas are parse errors, and trailing non-whitespace after the value is an
error. -/

inductive Json where
  | null
  | bool (b : Bool)
  | num (n : Int)
  | str (s : String)
  | arr (elems : List Json)
  | obj (entries : List (String × Json))

/-- `dict.get` on a parsed JSON object: Python keeps the last of duplicate
keys. -/
def jget (kvs : List (String × Json)) (k : String) : Option Json :=
  match kvs.reverse.find? (fun p => p.1 == k) with
  | some p => some p.2
  | none => none

/-- Python truthiness of a parsed JSON value. -/
def pyTruthy : Json → Bool
  | .null => false
  | .bool b => b
  | .num n => n ≠ 0
  | .str s => s ≠ ""
  | .arr xs => ¬ xs.isEmpty
  | .obj kvs => ¬ kvs.isEmpty

/-- `x or d` on a parsed JSON value. -/
def pyOr (a b : Json) : Json := if pyTruthy a then a else b

mutual

/-- Python `repr` of a parsed JSON value (string escaping inside `repr` is
out of model; only shape and non-emptiness matter to the claims). -/
def pyRepr : Json → String
  | .null => "None"
  | .bool b => if b then "True" else "False"
  | .num n => intStr n
  | .str s => String.mk ('\'' :: s.data ++ ['\''])
  | .arr xs => "[" ++ pyReprList xs ++ "]"
  | .obj kvs => String.mk ('\x7b' :: (pyReprObj kvs).data ++ ['\x7d'])

def pyReprList : List Json → String
  | [] => ""
  | [x] => pyRepr x
  | x :: y :: rest => pyRepr x ++ ", " ++ pyReprList (y :: rest)

def pyReprObj : List (String × Json) → String
  | [] => ""
  | [kv] => String.mk ('\'' :: kv.1.data ++ ['\'']) ++ ": " ++ pyRepr kv.2
  | kv :: kv2 :: rest =>
      String.mk ('\'' :: kv.1.data ++ ['\'']) ++ ": " ++ pyRepr kv.2 ++ ", " ++
        pyReprObj (kv2 :: rest)

end

/-- Python `str()` of a parsed JSON value. -/
def pyStr : Json → String
  | .str s => s
  | v => pyRepr v

/-- The whitespace skipped between JSON tokens. -/
def isJsonWs (c : Char) : Bool := c = ' ' ∨ c = '\t' ∨ c = '\n' ∨ c = '\r'

def skipWs (cs : List Char) : List Char := cs.dropWhile isJsonWs

def hexVal? (c : Char) : Option Nat :=
  if c.isDigit then some (c.toNat - 48)
  else if 'a' ≤ c ∧ c ≤ 'f' then some (c.toNat - 87)
  else if 'A' ≤ c ∧ c ≤ 'F' then some (c.toNat - 55)
  else none

/-- The characters of a JSON string body, after the opening quote.  Raw
control characters are rejected (strict mode); surrogate-pair recombination
of `\uXXXX` escapes is out of model. -/
def parseJStringAux (acc : List Char) : List Char → Option (List Char × List Char)
  | [] => none
  | '"' :: rest => some (acc.reverse, rest)
  | '\\' :: e :: rest =>
      if e = '"' then parseJStringAux ('"' :: acc) rest
      else if e = '\\' then parseJStringAux ('\\' :: acc) rest
      else if e = '/' then parseJStringAux ('/' :: acc) rest
      else if e = 'b' then parseJStringAux (Char.ofNat 8 :: acc) rest
      else if e = 'f' then parseJStringAux (Char.ofNat 12 :: acc) rest
      else if e = 'n' then parseJStringAux ('\n' :: acc) rest
      else if e = 'r' then parseJStringAux ('\r' :: acc) rest
      else if e = 't' then parseJStringAux ('\t' :: acc) rest
      else if e = 'u' then
        match rest with
        | h1 :: h2 :: h3 :: h4 :: rest2 =>
            match hexVal? h1, hexVal? h2, hexVal? h3, hexVal? h4 with
            | some a, some b, some c, some d =>
                parseJStringAux
                  (Char.ofNat (((a * 16 + b) * 16 + c) * 16 + d) :: acc) rest2
            | _, _, _, _ => none
        | _ => none
      else none
  | ['\\'] => none
  | c :: rest =>
      if c.toNat < 32 then none else parseJStringAux (c :: acc) rest

/-- Consume an optional fraction and exponent; `none` when malformed. -/
def skipFracExp (cs : List Char) : Option (List Char) :=
  let step1 : Option (List Char) :=
    match cs with
    | '.' :: rest =>
        let ds := rest.takeWhile (fun c => c.isDigit)
        if ds.isEmpty then none else some (rest.drop ds.length)
    | _ => some cs
  match step1 with
  | none => none
  | some cs1 =>
      match cs1 with
      | 'e' :: rest | 'E' :: rest =>
          let rest1 := match rest with
            | '+' :: r => r
            | '-' :: r => r
            | r => r
          let ds := rest1.takeWhile (fun c => c.isDigit)
          if ds.isEmpty then none else some (rest1.drop ds.length)
      | _ => some cs1

/-- A non-negative JSON number: integer part (no leading zeros), optional
fraction/exponent consumed with the value truncated to the integer part. -/
def parseJNumNat (cs : List Char) : Option (Nat × List Char) :=
  match cs with
  | '0' :: rest => (skipFracExp rest).map (fun r => (0, r))
  | c :: _ =>
      if c.isDigit then
        let ds := cs.takeWhile (fun ch => ch.isDigit)
        (skipFracExp (cs.drop ds.length)).map
          (fun r => (ds.foldl (fun acc ch => acc * 10 + (ch.toNat - 48)) 0, r))
      else none
  | [] => none

def parseJNum (cs : List Char) : Option (Int × List Char) :=
  match cs with
  | '-' :: rest => (parseJNumNat rest).map (fun p => (-(p.1 : Int), p.2))
  | _ => (parseJNumNat cs).map (fun p => ((p.1 : Int), p.2))

mutual

/-- Parse one JSON value at the head of the input (no leading whitespace). -/
def parseJValue : Nat → List Char → Option (Json × List Char)
  | 0, _ => none
  | _ + 1, 'n' :: 'u' :: 'l' :: 'l' :: rest => some (.null, rest)
  | _ + 1, 't' :: 'r' :: 'u' :: 'e' :: rest => some (.bool true, rest)
  | _ + 1, 'f' :: 'a' :: 'l' :: 's' :: 'e' :: rest => some (.bool false, rest)
  | _ + 1, '"' :: rest =>
      (parseJStringAux [] rest).map (fun p => (.str (String.mk p.1), p.2))
  | fuel + 1, '[' :: rest =>
      match skipWs rest with
      | ']' :: rest2 => some (.arr [], rest2)
      | rest1 => parseJArrayItems fuel rest1 []
  | fuel + 1, '\x7b' :: rest =>
      match skipWs rest with
      | '\x7d' :: rest2 => some (.obj [], rest2)
      | rest1 => parseJObjItems fuel rest1 []
  | _ + 1, cs =>
      match cs with
      | c :: _ =>
          if c = '-' ∨ c.isDigit then (parseJNum cs).map (fun p => (.num p.1, p.2))
          else none
      | [] => none

/-- Array elements after `[`, at a value position. -/
def parseJArrayItems : Nat → List Char → List Json → Option (Json × List Char)
  | 0, _, _ => none
  | fuel + 1, cs, acc =>
      match parseJValue fuel cs with
      | none => none
      | some (v, rest) =>
          match skipWs rest with
          | ',' :: rest2 => parseJArrayItems fuel (skipWs rest2) (v :: acc)
          | ']' :: rest2 => some (.arr (v :: acc).reverse, rest2)
          | _ => none

/-- Object members after `{`, at a key position. -/
def parseJObjItems : Nat → List Char → List (String × Json) →
    Option (Json × List Char)
  | 0, _, _ => none
  | fuel + 1, cs, acc =>
      match cs with
      | '"' :: rest =>
          match parseJStringAux [] rest with
          | none => none
          | some (k, rest1) =>
              match skipWs rest1 with
              | ':' :: rest2 =>
                  match parseJValue fuel (skipWs rest2) with
                  | none => none
                  | some (v, rest3) =>
                      match skipWs rest3 with
                      | ',' :: rest4 =>
                          parseJObjItems fuel (skipWs rest4)
                            ((String.mk k, v) :: acc)
                      | '\x7d' :: rest4 =>
                          some (.obj ((String.mk k, v) :: acc).reverse, rest4)
                      | _ => none
              | _ => none
      | _ => none

end

/-- `json.loads`: parse one value, allowing only surrounding whitespace. -/
def jsonLoads (s : String) : Option Json :=
  match parseJValue (2 * s.data.length + 2) (skipWs s.data) with
  | some (v, rest) => if (skipWs rest).isEmpty then some v else none
  | none => none

/-! ## `parse_llm_issues` (`backend/prompts/templates.py`)

The collaborator-response parser: strict parse, sanitised parse, then
field-oriented regex extraction, with every tier feeding
`_convert_to_issue_format`. -/

/-- An issue dictionary as carried in the run state (`AnalysisState.issues`):
the eight keys every analyzer writes. -/
structure IssueRec where
  location : String
  type : String
  risk_level : String
  title : String
  description : String
  code_snippet : String
  solution : String
  author : String
deriving DecidableEq, Repr

/-- `re.search(r'\[[\s\S]*\]', s)` (and the brace variant): the span from
the first opener to the last closer, when the first opener comes first. -/
def extractSpan (op cl : Char) (s : String) : Option String :=
  match s.data.findIdx? (fun c => c = op) with
  | none => none
  | some i =>
      match s.data.reverse.findIdx? (fun c => c = cl) with
      | none => none
      | some k =>
          let j := s.data.length - 1 - k
          if i < j then some (String.mk ((s.data.drop i).take (j - i + 1)))
          else none

/-- `re.sub(r',\s*X', 'X', s)` for a closer `X`: drop a comma standing
(possibly across whitespace) directly before the closer, resuming the scan
after each replacement. -/
def zapCommaAux (close : Char) : Nat → List Char → List Char
  | 0, cs => cs
  | _ + 1, [] => []
  | fuel + 1, c :: rest =>
      if c = ',' then
        match rest.dropWhile isPyWs with
        | d :: rest2 =>
            if d = close then close :: zapCommaAux close fuel rest2
            else c :: zapCommaAux close fuel rest
        | [] => c :: zapCommaAux close fuel rest
      else c :: zapCommaAux close fuel rest

def zapComma (close : Char) (s : String) : String :=
  String.mk (zapCommaAux close (s.data.length + 1) s.data)

/-- `re.sub(r'[\x00-\x1f\x7f-\x9f]', '', s)`: drop control characters. -/
def removeCtl (s : String) : String :=
  String.mk (s.data.filter
    (fun c => ¬ (c.toNat ≤ 31 ∨ (127 ≤ c.toNat ∧ c.toNat ≤ 159))))

/-- Leftmost-position regex search: try a matcher at every suffix. -/
def pySearch {α : Type} (f : List Char → Option α) : List Char → Option α
  | [] => f []
  | c :: rest =>
      match f (c :: rest) with
      | some r => some r
      | none => pySearch f rest

/-- Matcher for `"KEY"\s*:\s*"` at the head of the input; yields what follows
the opening quote of the value. -/
def matchKeyPrefix (key : List Char) (cs : List Char) : Option (List Char) :=
  if cs.take (key.length + 2) = '"' :: (key ++ ['"']) then
    match (cs.drop (key.length + 2)).dropWhile isPyWs with
    | ':' :: r2 =>
        match r2.dropWhile isPyWs with
        | '"' :: r4 => some r4
        | _ => none
    | _ => none
  else none

/-- `"KEY"\s*:\s*"([^"]+)"`: a non-empty run of non-quote characters. -/
def matchQuotedField (key : List Char) (cs : List Char) : Option (List Char) :=
  match matchKeyPrefix key cs with
  | none => none
  | some r4 =>
      let content := r4.takeWhile (fun c => c ≠ '"')
      if content.isEmpty then none
      else
        match r4.drop content.length with
        | '"' :: _ => some content
        | _ => none

/-- `"KEY"\s*:\s*(\d+)`: a non-empty digit run. -/
def matchNumField (key : List Char) (cs : List Char) : Option Nat :=
  if cs.take (key.length + 2) = '"' :: (key ++ ['"']) then
    match (cs.drop (key.length + 2)).dropWhile isPyWs with
    | ':' :: r2 =>
        let r3 := r2.dropWhile isPyWs
        let ds := r3.takeWhile (fun c => c.isDigit)
        if ds.isEmpty then none
        else some (ds.foldl (fun acc c => acc * 10 + (c.toNat - 48)) 0)
    | _ => none
  else none

/-- The body regex `((?:[^"\\]|\\.)*)"`: a possibly-empty run of non-quote
non-backslash characters or backslash-escaped pairs (kept raw, as the regex
tier performs no unescaping), closed by a quote. -/
def matchEscapedBody (acc : List Char) : List Char → Option (List Char)
  | [] => none
  | '"' :: _ => some acc.reverse
  | '\\' :: e :: rest => matchEscapedBody (e :: '\\' :: acc) rest
  | ['\\'] => none
  | c :: rest => matchEscapedBody (c :: acc) rest

/-- `"KEY"\s*:\s*"((?:[^"\\]|\\.)*)"`. -/
def matchEscapedField (key : List Char) (cs : List Char) : Option (List Char) :=
  match matchKeyPrefix key cs with
  | none => none
  | some r4 => matchEscapedBody [] r4

/-- The non-greedy snippet body `(.+?)"\s*[,}]` under `re.DOTALL`: the
shortest non-empty prefix whose following quote is trailed (across
whitespace) by a comma or closing brace. -/
def snippetScan (acc : List Char) : List Char → Option (List Char)
  | [] => none
  | c :: rest =>
      let nextOk : Bool :=
        match rest.dropWhile isPyWs with
        | d :: _ => d = ',' ∨ d = '\x7d'
        | [] => false
      if c = '"' ∧ ¬ acc.isEmpty ∧ nextOk then some acc.reverse
      else snippetScan (c :: acc) rest

/-- `"code_snippet"\s*:\s*"(.+?)"\s*[,}]` with `re.DOTALL`. -/
def matchSnippetField (cs : List Char) : Option (List Char) :=
  match matchKeyPrefix ("code_snippet".data) cs with
  | none => none
  | some r4 => snippetScan [] r4

/-- The split point lookahead `(?=\{\s*"title")`. -/
def braceTitleAt (cs : List Char) : Bool :=
  match cs with
  | '\x7b' :: rest => (rest.dropWhile isPyWs).take 7 = "\"title\"".data
  | _ => false

/-- `re.split(r'(?=\{\s*"title")', s)`: split before every position matching
the lookahead. -/
def splitBeforeTitle (acc : List Char) : List Char → List (List Char)
  | [] => [acc.reverse]
  | c :: rest =>
      if braceTitleAt (c :: rest) then
        acc.reverse :: splitBeforeTitle [c] rest
      else splitBeforeTitle (c :: acc) rest

/-- `_extract_issues_with_regex`: split the response before each
`{\s*"title"`, and extract the five regex fields from every part containing
`"title"`, keeping parts whose title field matched. -/
def extractIssuesWithRegex (response : String) : List Json :=
  (splitBeforeTitle [] response.data).filterMap fun part =>
    if containsSub ("\"title\"".data) part then
      let fields : List (String × Json) :=
        (match pySearch (matchQuotedField ("title".data)) part with
         | some v => [("title", Json.str (String.mk v))]
         | none => []) ++
        (match pySearch (matchQuotedField ("risk_level".data)) part with
         | some v => [("risk_level", Json.str (String.mk v))]
         | none => []) ++
        (match pySearch (matchNumField ("line_number".data)) part with
         | some n => [("line_number", Json.num (n : Int))]
         | none => []) ++
        (match pySearch (matchEscapedField ("description".data)) part with
         | some v => [("description", Json.str (String.mk v))]
         | none => []) ++
        (match pySearch (matchEscapedField ("solution".data)) part with
         | some v => [("solution", Json.str (String.mk v))]
         | none => []) ++
        (match pySearch matchSnippetField part with
         | some v => [("code_snippet", Json.str (String.mk v))]
         | none => [])
      match jget fields "title" with
      | some t => if pyTruthy t then some (Json.obj fields) else none
      | none => none
    else none

/-- Python's `isinstance(x, int)`: true for numbers and booleans (`bool` is
a subclass of `int`). -/
def pyIsInt : Json → Bool
  | .num _ => true
  | .bool _ => true
  | _ => false

/-- What `f"{file_path}:{line_num}"` renders after the normalisation of
`line_num`: an integer, or a Python boolean that slipped through the
`isinstance(…, int)` check. -/
inductive PyIntLike where
  | int (n : Int)
  | bool (b : Bool)
deriving DecidableEq, Repr

def PyIntLike.render : PyIntLike → String
  | .int n => intStr n
  | .bool b => if b then "True" else "False"

/-- The `line_num` normalisation of `_convert_to_issue_format`: keep values
passing `isinstance(…, int)` (numbers and booleans), coerce strings through
`int(...)`, and fall back to 1 on `ValueError`/`TypeError`. -/
def lineValOf : Json → PyIntLike
  | .num n => .int n
  | .bool b => .bool b
  | .str s =>
      match pyIntOfString s with
      | some n => .int n
      | none => .int 1
  | _ => .int 1

/-- One record of `_convert_to_issue_format`. -/
def convertOne (kvs : List (String × Json)) (fp t : String) : IssueRec :=
  let line_raw := ((jget kvs "line_number").getD ((jget kvs "line").getD (.num 1)))
  let line_num := lineValOf line_raw
  let risk0 := pyLower (pyStr ((jget kvs "risk_level").getD (.str "medium")))
  let risk_level :=
    if risk0 = "critical" ∨ risk0 = "high" ∨ risk0 = "medium" ∨ risk0 = "low"
    then risk0 else "medium"
  { location := fp ++ ":" ++ line_num.render
    type := t
    risk_level := risk_level
    title := takeChars 200 (pyStr (pyOr ((jget kvs "title").getD .null)
      (.str "Unnamed Issue")))
    description := pyStr (pyOr ((jget kvs "description").getD .null)
      (.str "No description provided"))
    code_snippet := takeChars 500 (pyStr ((jget kvs "code_snippet").getD
      (.str "")))
    solution := pyStr (pyOr ((jget kvs "solution").getD .null)
      (.str "Review and fix the issue"))
    author := pyCapitalize t ++ "Agent (LLM)" }

/-- `_convert_to_issue_format`: skip non-dict items, normalise the rest. -/
def convertToIssueFormat (items : List Json) (fp t : String) : List IssueRec :=
  items.filterMap fun item =>
    match item with
    | .obj kvs => some (convertOne kvs fp t)
    | _ => none

/-- One structured-parse tier: `json.loads`, then wrap a dict as a singleton
list; a value of any other type falls through to the next tier (the Python
code reaches no `return` for it). -/
def tierParse (s : String) : Option (List Json) :=
  match jsonLoads s with
  | some (.obj kvs) => some [.obj kvs]
  | some (.arr xs) => some xs
  | some _ => none
  | none => none

/-- The literal first argument of the corrupted `.replace(''', "'")` call on
line 222 of `templates.py`: Lean rendering of the Python token stream, where
`'''` opens a triple-quoted string holding everything up to the next `'''`. -/
def needle222 : String :=
  String.mk [',', ' ', '"', '\'', '"', ')', '.', 'r', 'e', 'p', 'l', 'a', 'c',
    'e', '(']

/-- `parse_llm_issues(response, file_path, issue_type)`.

Tier structure as in the source: empty/whitespace input returns `[]`; the
quote-normalisation block is embedded exactly as the file reads (both
`replace('"', '"')` calls are no-ops and the third call replaces the literal
`needle222`, the mojibake residue of the intended smart-quote handling);
then bracket- or brace-span extraction, a strict parse, a sanitised parse,
and the regex tier.  Every failing tier yields `[]` through
`_convert_to_issue_format` of an empty item list. -/
def parse_llm_issues (response file_path issue_type : String) : List IssueRec :=
  if pyStrip response = "" then []
  else
    let c1 := pyReplace response "\"" "\""
    let c2 := pyReplace c1 "\"" "\""
    let cleaned_response := pyReplace c2 needle222 "'"
    let json_match :=
      match extractSpan '[' ']' cleaned_response with
      | some m => some m
      | none => extractSpan '\x7b' '\x7d' cleaned_response
    match json_match with
    | none => []
    | some json_str =>
        match tierParse json_str with
        | some items => convertToIssueFormat items file_path issue_type
        | none =>
            let cleaned := removeCtl (zapComma '\x7d' (zapComma ']' json_str))
            match tierParse cleaned with
            | some items => convertToIssueFormat items file_path issue_type
            | none =>
                convertToIssueFormat (extractIssuesWithRegex cleaned_response)
                  file_path issue_type

/-! ### Parser lemmas -/

theorem string_ne_empty_iff (s : String) : s ≠ "" ↔ s.data ≠ [] := by
  constructor
  · intro h hd
    exact h (String.ext hd)
  · intro h hs
    exact h (String.data_eq_of_eq hs)

theorem mk_append_ne_empty (c : Char) (l : List Char) :
    String.mk (c :: l) ≠ "" := by
  rw [string_ne_empty_iff]
  simp

theorem append_ne_empty_left {a : String} (b : String) (h : a ≠ "") :
    a ++ b ≠ "" := by
  rw [string_ne_empty_iff] at h ⊢
  intro hd
  rw [String.data_append] at hd
  exact h (List.append_eq_nil.mp hd).1

/-- A truthy JSON value renders to a non-empty string under `str()`. -/
theorem pyStr_ne_empty_of_truthy {v : Json} (h : pyTruthy v = true) :
    pyStr v ≠ "" := by
  cases v with
  | null => simp [pyTruthy] at h
  | bool b =>
      cases b
      · simp [pyTruthy] at h
      · show pyRepr (.bool true) ≠ ""
        rw [pyRepr]
        decide
  | num n =>
      show pyRepr (.num n) ≠ ""
      rw [pyRepr]
      exact intStr_ne_empty n
  | str s =>
      simp only [pyTruthy, decide_eq_true_eq] at h
      exact h
  | arr xs =>
      show pyRepr (.arr xs) ≠ ""
      rw [pyRepr]
      apply append_ne_empty_left
      apply append_ne_empty_left
      decide
  | obj kvs =>
      show pyRepr (.obj kvs) ≠ ""
      rw [pyRepr]
      exact mk_append_ne_empty _ _

theorem pyStr_pyOr_ne_empty (v : Json) (d : String) (hd : d ≠ "") :
    pyStr (pyOr v (.str d)) ≠ "" := by
  unfold pyOr
  split
  · next h => exact pyStr_ne_empty_of_truthy h
  · exact hd

theorem takeChars_ne_empty {s : String} (n : Nat) (hn : 0 < n) (h : s ≠ "") :
    takeChars n s ≠ "" := by
  rw [string_ne_empty_iff] at h ⊢
  show s.data.take n ≠ []
  cases hs : s.data with
  | nil => exact absurd hs h
  | cons c rest =>
      cases n with
      | zero => omega
      | succ m => simp

theorem takeChars_length_le (n : Nat) (s : String) :
    (takeChars n s).length ≤ n := by
  show (s.data.take n).length ≤ n
  rw [List.length_take]
  omega

/-- Every record built by `_convert_to_issue_format` is normalised: enum
risk, non-empty bounded title, non-empty description and solution, bounded
snippet, and a location of the form `file:line` for an int-like line. -/
theorem convertOne_normalised (kvs : List (String × Json)) (fp t : String) :
    (convertOne kvs fp t).risk_level ∈ ["critical", "high", "medium", "low"] ∧
    (convertOne kvs fp t).title ≠ "" ∧
    (convertOne kvs fp t).title.length ≤ 200 ∧
    (convertOne kvs fp t).description ≠ "" ∧
    (convertOne kvs fp t).solution ≠ "" ∧
    (convertOne kvs fp t).code_snippet.length ≤ 500 ∧
    ∃ v : PyIntLike, (convertOne kvs fp t).location = fp ++ ":" ++ v.render := by
  refine ⟨?_, ?_, ?_, ?_, ?_, ?_, ?_⟩
  · show (if _ then _ else "medium") ∈ _
    split
    · next h => rcases h with h | h | h | h <;> rw [h] <;> simp
    · simp
  · exact takeChars_ne_empty 200 (by omega)
      (pyStr_pyOr_ne_empty _ _ (by decide))
  · exact takeChars_length_le 200 _
  · exact pyStr_pyOr_ne_empty _ _ (by decide)
  · exact pyStr_pyOr_ne_empty _ _ (by decide)
  · exact takeChars_length_le 500 _
  · exact ⟨_, rfl⟩

/-- When neither a `line_number` nor a `line` key is present, the location
line defaults to 1. -/
theorem convertOne_default_line (kvs : List (String × Json)) (fp t : String)
    (h1 : jget kvs "line_number" = none) (h2 : jget kvs "line" = none) :
    (convertOne kvs fp t).location = fp ++ ":" ++ "1" := by
  unfold convertOne
  rw [h1, h2]
  rfl

theorem mem_convertToIssueFormat {i : IssueRec} {items : List Json}
    {fp t : String} (h : i ∈ convertToIssueFormat items fp t) :
    ∃ kvs, i = convertOne kvs fp t := by
  unfold convertToIssueFormat at h
  rw [List.mem_filterMap] at h
  obtain ⟨item, -, hsome⟩ := h
  cases item with
  | obj kvs =>
      refine ⟨kvs, ?_⟩
      simp only [Option.some.injEq] at hsome
      exact hsome.symm
  | null => simp at hsome
  | bool b => simp at hsome
  | num n => simp at hsome
  | str s => simp at hsome
  | arr xs => simp at hsome

/-- Whatever the response text, `parse_llm_issues` is the conversion of some
item list: every tier funnels through `_convert_to_issue_format`, and a
failed tier yields the empty conversion. -/
theorem parse_llm_issues_shape (r fp t : String) :
    ∃ items, parse_llm_issues r fp t = convertToIssueFormat items fp t := by
  unfold parse_llm_issues
  split
  · exact ⟨[], rfl⟩
  · dsimp only
    split
    · exact ⟨[], rfl⟩
    · split
      · exact ⟨_, rfl⟩
      · split
        · exact ⟨_, rfl⟩
        · exact ⟨_, rfl⟩

/-! ## Run state and orchestration

`backend/agents/graph.py` (state type, routing, graph), `manager.py` and
`specialists.py`.  The append-only `messages` audit log and the `config`
dictionary influence no control flow relevant to the claims and are not
modelled.  LangGraph merges a node's returned partial update into the state —
`issues` by list concatenation (its `operator.add` annotation), every other
key by overwrite; each node function below returns the merged state
directly. -/

inductive ScanStatus where
  | pending
  | scanning
  | compiling
  | done
  | error
deriving DecidableEq, Repr

/-- `AnalysisState` of `graph.py` (the shared run state). -/
structure AnalysisState where
  target_path : String
  files_to_analyze : List String
  current_file : String
  current_file_content : String
  processed_files : List String
  current_file_analyzed_by : List String
  issues : List IssueRec
  scan_status : ScanStatus
  summary : String
  error : String
deriving DecidableEq, Repr

/-- The graph's nodes; `stop` is LangGraph's `END`. -/
inductive Node where
  | manager
  | security
  | performance
  | architecture
  | compile
  | stop
deriving DecidableEq, Repr

/-- `route_after_manager`. -/
def route_after_manager (s : AnalysisState) : Node :=
  if s.error ≠ "" then .stop
  else if s.scan_status = .compiling then .compile
  else if s.current_file ≠ "" ∧ s.current_file_content ≠ "" then
    if "security" ∉ s.current_file_analyzed_by then .security
    else if "performance" ∉ s.current_file_analyzed_by then .performance
    else if "architecture" ∉ s.current_file_analyzed_by then .architecture
    else .manager
  else if s.files_to_analyze ≠ [] then .manager
  else .compile

/-- `route_after_security`: straight to the performance agent. -/
def route_after_security (s : AnalysisState) : Node :=
  if s.error ≠ "" then .stop else .performance

/-- `route_after_performance`: straight to the architecture agent. -/
def route_after_performance (s : AnalysisState) : Node :=
  if s.error ≠ "" then .stop else .architecture

/-- `route_after_architecture`: back to the manager. -/
def route_after_architecture (s : AnalysisState) : Node :=
  if s.error ≠ "" then .stop else .manager

/-- `route_after_compiler`: always `END`. -/
def route_after_compiler (_ : AnalysisState) : Node := .stop

/-! ### External collaborators as oracles -/

/-- One entry of `_extract_functions_impl` (AST oracle); `error` marks the
error dictionaries the source filters with `"error" not in func`. -/
structure FuncInfo where
  error : Bool
  name : String
  line_start : Int
  line_end : Int
  args : List String
deriving DecidableEq, Repr

/-- One entry of `_extract_classes_impl`. -/
structure ClassInfo where
  error : Bool
  name : String
  line_start : Int
  methods : List String
deriving DecidableEq, Repr

/-- One raw match of `_find_issues_by_patterns` (the Rule Engine). -/
structure Finding where
  category : String
  pattern : String
  line_number : Int
  line_content : String
  matched : String
deriving DecidableEq, Repr

/-- The external collaborators consumed by the nodes, at exactly the call
boundaries of the source: file reads, file discovery, the generation
service (`None` models an unavailable LLM or a failed invocation), the
regex engine keyed by category, and the AST/metrics extractors. -/
structure Oracles where
  read : String → String
  discovered : List String
  llm : String → String → Option String
  findPat : String → String → List Finding
  functions : String → List FuncInfo
  classes : String → List ClassInfo
  complexity : String → Nat
  metricsFunctions : String → Nat
  metricsClasses : String → Nat
deriving Inhabited

/-! ### Specialist rule tables (`specialists.py`) -/

def _determine_security_risk (pattern : String) : String :=
  if pattern ∈ ["sql_injection", "eval_usage", "exec_usage", "pickle_loads",
      "shell_injection"] then "critical"
  else if pattern ∈ ["hardcoded_secret", "unsafe_yaml"] then "high"
  else if pattern ∈ ["debug_true", "insecure_hash"] then "medium"
  else "low"

def _get_security_title (pattern : String) : String :=
  if pattern = "sql_injection" then "Potential SQL Injection"
  else if pattern = "hardcoded_secret" then "Hardcoded Secret/Credential"
  else if pattern = "eval_usage" then "Unsafe eval() Usage"
  else if pattern = "exec_usage" then "Unsafe exec() Usage"
  else if pattern = "pickle_loads" then "Unsafe Pickle Deserialization"
  else if pattern = "shell_injection" then "Potential Shell Injection"
  else if pattern = "unsafe_yaml" then "Unsafe YAML Loading"
  else if pattern = "hardcoded_ip" then "Hardcoded IP Address"
  else if pattern = "debug_true" then "Debug Mode Enabled"
  else if pattern = "insecure_hash" then "Insecure Hash Algorithm"
  else "Security Issue: " ++ pattern

def _get_security_description (pattern mtch : String) : String :=
  if pattern = "sql_injection" then
    "Detected potential SQL injection vulnerability. User input may be directly concatenated into SQL query: `" ++ takeChars 50 mtch ++ "...`"
  else if pattern = "hardcoded_secret" then
    "Found hardcoded secret or credential in source code: `" ++ takeChars 30 mtch ++ "...`. This exposes sensitive information."
  else if pattern = "eval_usage" then
    "Using eval() with external input can execute arbitrary code and is a critical security risk."
  else if pattern = "exec_usage" then
    "Using exec() with external input can execute arbitrary code and is a critical security risk."
  else if pattern = "pickle_loads" then
    "pickle.loads() can execute arbitrary code during deserialization. Never unpickle data from untrusted sources."
  else if pattern = "shell_injection" then
    "Shell command appears to include external input: `" ++ takeChars 50 mtch ++ "...`. This could allow command injection."
  else if pattern = "unsafe_yaml" then
    "yaml.load() without Loader parameter can execute arbitrary code. Use yaml.safe_load() instead."
  else if pattern = "hardcoded_ip" then
    "Hardcoded IP address found: `" ++ mtch ++ "`. Consider using configuration or environment variables."
  else if pattern = "debug_true" then
    "Debug mode is enabled in code. Ensure this is disabled in production."
  else if pattern = "insecure_hash" then
    "MD5 or SHA1 are cryptographically weak. Use SHA-256 or stronger for security purposes."
  else "Security concern detected: " ++ pattern

def _get_security_solution (pattern : String) : String :=
  if pattern = "sql_injection" then
    "Use parameterized queries or an ORM with proper escaping. Never concatenate user input into SQL."
  else if pattern = "hardcoded_secret" then
    "Move secrets to environment variables or a secure secrets manager. Never commit secrets to source control."
  else if pattern = "eval_usage" then
    "Avoid eval(). If dynamic execution is needed, use ast.literal_eval() for safe evaluation of literals."
  else if pattern = "exec_usage" then
    "Avoid exec(). Consider safer alternatives like importlib for dynamic imports."
  else if pattern = "pickle_loads" then
    "Use JSON or other safe serialization formats. If pickle is required, only unpickle trusted data."
  else if pattern = "shell_injection" then
    "Use subprocess with shell=False and pass arguments as a list. Validate and sanitize all inputs."
  else if pattern = "unsafe_yaml" then
    "Replace yaml.load() with yaml.safe_load() or specify Loader=yaml.SafeLoader."
  else if pattern = "hardcoded_ip" then
    "Use environment variables or configuration files for IP addresses to support different environments."
  else if pattern = "debug_true" then
    "Use environment variables to control debug mode. Set DEBUG=False for production."
  else if pattern = "insecure_hash" then
    "Use hashlib.sha256() or hashlib.sha3_256() for security-sensitive hashing."
  else "Review and fix the security concern following security best practices."

def _determine_performance_risk (pattern : String) : String :=
  if pattern ∈ ["n_plus_one", "nested_loops"] then "high"
  else if pattern ∈ ["select_all", "no_limit_query", "string_concat_loop"] then
    "medium"
  else "low"

def _get_performance_title (pattern : String) : String :=
  if pattern = "n_plus_one" then "N+1 Query Pattern"
  else if pattern = "select_all" then "SELECT * Query"
  else if pattern = "no_limit_query" then "Query Without Limit"
  else if pattern = "string_concat_loop" then "String Concatenation in Loop"
  else if pattern = "global_variable" then "Global Variable Usage"
  else if pattern = "nested_loops" then "Nested Loop (O(n²) complexity)"
  else if pattern = "repeated_computation" then "Repeated Computation"
  else "Performance Issue: " ++ pattern

def _get_performance_description (pattern mtch : String) : String :=
  if pattern = "n_plus_one" then
    "Detected N+1 query pattern where database queries are made inside a loop: `" ++ takeChars 50 mtch ++ "...`"
  else if pattern = "select_all" then
    "Using SELECT * retrieves all columns, which can be inefficient. Select only needed columns."
  else if pattern = "no_limit_query" then
    "Query retrieves all records without limit, which can cause memory issues with large datasets."
  else if pattern = "string_concat_loop" then
    "String concatenation in a loop creates many intermediate strings. Use join() or list comprehension."
  else if pattern = "global_variable" then
    "Global variables can cause performance issues in multi-threaded environments and make code harder to optimize."
  else if pattern = "nested_loops" then
    "Nested loops detected: `" ++ takeChars 40 mtch ++ "...`. This has O(n²) complexity and can be slow for large inputs."
  else if pattern = "repeated_computation" then
    "Same computation appears to be repeated: `" ++ takeChars 40 mtch ++ "...`. Consider caching the result."
  else "Performance concern detected: " ++ pattern

def _get_performance_solution (pattern : String) : String :=
  if pattern = "n_plus_one" then
    "Use eager loading (prefetch_related, select_related) or batch queries to reduce database round trips."
  else if pattern = "select_all" then
    "Specify only the columns you need: SELECT col1, col2 FROM table instead of SELECT *."
  else if pattern = "no_limit_query" then
    "Add LIMIT clause or use pagination (.all()[:100] or .paginate()) to avoid loading entire tables."
  else if pattern = "string_concat_loop" then
    "Use ''.join(list_of_strings) or build a list and join at the end."
  else if pattern = "global_variable" then
    "Pass values as function parameters or use dependency injection. Consider using a class to encapsulate state."
  else if pattern = "nested_loops" then
    "Consider using sets for O(1) lookups, dictionary-based approaches, or algorithmic optimizations."
  else if pattern = "repeated_computation" then
    "Cache the result in a variable or use functools.lru_cache for function memoization."
  else "Review and optimize for better performance."

def _determine_architecture_risk (pattern : String) : String :=
  if pattern ∈ ["god_class", "wildcard_import"] then "high"
  else if pattern ∈ ["long_function", "too_many_params", "bare_except",
      "pass_in_except"] then "medium"
  else "low"

def _get_architecture_title (pattern : String) : String :=
  if pattern = "god_class" then "God Class (Too Large)"
  else if pattern = "long_function" then "Long Function"
  else if pattern = "too_many_params" then "Too Many Parameters"
  else if pattern = "magic_number" then "Magic Number"
  else if pattern = "todo_fixme" then "TODO/FIXME Comment"
  else if pattern = "bare_except" then "Bare Except Clause"
  else if pattern = "pass_in_except" then "Empty Exception Handler"
  else if pattern = "unused_import" then "Potentially Unused Import"
  else if pattern = "wildcard_import" then "Wildcard Import"
  else "Architecture Issue: " ++ pattern

def _get_architecture_description (pattern mtch : String) : String :=
  if pattern = "god_class" then
    "Class is very large and likely handles too many responsibilities."
  else if pattern = "long_function" then
    "Function is very long and may be doing too much."
  else if pattern = "too_many_params" then
    "Function has many parameters: `" ++ takeChars 40 mtch ++ "...`. This makes it hard to use and test."
  else if pattern = "magic_number" then
    "Magic number detected: `" ++ mtch ++ "`. Unnamed numbers make code harder to understand."
  else if pattern = "todo_fixme" then
    "Found incomplete work marker: `" ++ mtch ++ "`. This should be addressed or tracked."
  else if pattern = "bare_except" then
    "Bare except catches all exceptions including KeyboardInterrupt and SystemExit."
  else if pattern = "pass_in_except" then
    "Empty exception handler silently ignores errors, making debugging difficult."
  else if pattern = "unused_import" then
    "Import may be unused: `" ++ takeChars 40 mtch ++ "...`. Unused imports add clutter."
  else if pattern = "wildcard_import" then
    "Wildcard import: `" ++ mtch ++ "`. This pollutes the namespace and makes code harder to understand."
  else "Architecture concern detected: " ++ pattern

def _get_architecture_solution (pattern : String) : String :=
  if pattern = "god_class" then
    "Apply Single Responsibility Principle. Split into smaller classes with focused responsibilities."
  else if pattern = "long_function" then
    "Extract smaller functions. Each function should do one thing well."
  else if pattern = "too_many_params" then
    "Consider using a configuration object, dataclass, or builder pattern to reduce parameters."
  else if pattern = "magic_number" then
    "Define named constants with meaningful names: MAX_RETRIES = 3 instead of just 3."
  else if pattern = "todo_fixme" then
    "Create a proper issue/ticket to track this work. Include context for future developers."
  else if pattern = "bare_except" then
    "Catch specific exceptions: except ValueError, TypeError: or use except Exception: at minimum."
  else if pattern = "pass_in_except" then
    "Log the exception or re-raise it. At minimum: except Exception as e: logger.error(e)"
  else if pattern = "unused_import" then
    "Remove unused imports to keep code clean. Use tools like autoflake or ruff."
  else if pattern = "wildcard_import" then
    "Import specific names: from module import func1, func2 instead of from module import *"
  else "Review and refactor following clean code principles."

/-! ### Deduplication (`specialists.py`) -/

/-- `location.split(":")[-1]`: the text after the last colon. -/
def lastColonSeg (s : String) : String :=
  String.mk ((s.data.reverse.takeWhile (fun c => c ≠ ':')).reverse)

/-- The value of `int(issue.get("location", ":0").split(":")[-1])` when that
call succeeds.  The source's `int()` raises an uncaught `ValueError` on a
non-numeric segment (the parser can produce one, e.g. `f.py:True` from a
boolean `line_number`); that raising path is modelled faithfully by
`anyNearE` and the `…nodeE` functions below, which return `none` where the
node would crash.  The default 0 here is never consulted on the error-free
runs the theorems relate to the source. -/
def locLine (loc : String) : Int := (pyIntOfString (lastColonSeg loc)).getD 0

/-- `abs(int(...) - finding["line_number"]) <= 2`, on the error-free path. -/
def isNearLine (i : IssueRec) (line : Int) : Bool :=
  (locLine i.location - line).natAbs ≤ 2

/-- One iteration of the rule-finding loop, on the error-free path: a finding
within two lines of an already-accepted issue is discarded, otherwise its
issue is appended. -/
def dedupStep (mk : Finding → IssueRec) (acc : List IssueRec) (f : Finding) :
    List IssueRec :=
  if acc.any (fun i => isNearLine i f.line_number) then acc
  else acc ++ [mk f]

/-- The pattern-sourced issue built in the `security_node` loop. -/
def securityPatternIssue (current_file : String) (f : Finding) : IssueRec :=
  { location := current_file ++ ":" ++ intStr f.line_number
    type := "security"
    risk_level := _determine_security_risk f.pattern
    title := _get_security_title f.pattern
    description := _get_security_description f.pattern f.matched
    code_snippet := f.line_content
    solution := _get_security_solution f.pattern
    author := "SecurityAgent (Pattern)" }

def performancePatternIssue (current_file : String) (f : Finding) : IssueRec :=
  { location := current_file ++ ":" ++ intStr f.line_number
    type := "performance"
    risk_level := _determine_performance_risk f.pattern
    title := _get_performance_title f.pattern
    description := _get_performance_description f.pattern f.matched
    code_snippet := f.line_content
    solution := _get_performance_solution f.pattern
    author := "PerformanceAgent (Pattern)" }

def architecturePatternIssue (current_file : String) (f : Finding) : IssueRec :=
  { location := current_file ++ ":" ++ intStr f.line_number
    type := "architecture"
    risk_level := _determine_architecture_risk f.pattern
    title := _get_architecture_title f.pattern
    description := _get_architecture_description f.pattern f.matched
    code_snippet := f.line_content
    solution := _get_architecture_solution f.pattern
    author := "ArchitectureAgent (Pattern)" }

/-- The parsed collaborator issues of one analyzer invocation: empty when the
LLM is unavailable, fails, or returns an empty response. -/
def llmIssuesOf (o : Oracles) (category current_file : String) : List IssueRec :=
  match o.llm category current_file with
  | none => []
  | some response =>
      if response ≠ "" then parse_llm_issues response current_file category
      else []

/-! ### The three specialist nodes -/

/-- `security_node`. -/
def security_node (o : Oracles) (s : AnalysisState) : AnalysisState :=
  if s.current_file_content = "" ∨ s.current_file = "" then
    { s with current_file_analyzed_by := s.current_file_analyzed_by ++ ["security"] }
  else
    let llm_issues := llmIssuesOf o "security" s.current_file
    let pattern_findings := o.findPat "security" s.current_file_content
    let issues := pattern_findings.foldl
      (dedupStep (securityPatternIssue s.current_file)) llm_issues
    { s with
        current_file_analyzed_by := s.current_file_analyzed_by ++ ["security"]
        issues := s.issues ++ issues }

/-- The complexity warning appended by `performance_node` when the metrics
oracle reports an estimate above 50 and no accepted title mentions
complexity. -/
def complexityIssue (o : Oracles) (s : AnalysisState) : IssueRec :=
  { location := s.current_file ++ ":" ++ intStr 1
    type := "performance"
    risk_level := "medium"
    title := "High Code Complexity"
    description := "File has high complexity score (" ++
      intStr (o.complexity s.current_file_content) ++
      "). Consider refactoring for better performance and maintainability."
    code_snippet := "# Metrics: " ++
      intStr (o.metricsFunctions s.current_file_content) ++ " functions, " ++
      intStr (o.metricsClasses s.current_file_content) ++ " classes"
    solution := "Break down complex functions into smaller units. Consider extracting classes or modules."
    author := "PerformanceAgent (Metrics)" }

/-- `performance_node`. -/
def performance_node (o : Oracles) (s : AnalysisState) : AnalysisState :=
  if s.current_file_content = "" ∨ s.current_file = "" then
    { s with current_file_analyzed_by :=
        s.current_file_analyzed_by ++ ["performance"] }
  else
    let llm_issues := llmIssuesOf o "performance" s.current_file
    let pattern_findings := o.findPat "performance" s.current_file_content
    let issues1 := pattern_findings.foldl
      (dedupStep (performancePatternIssue s.current_file)) llm_issues
    let issues2 :=
      if o.complexity s.current_file_content > 50 ∧
          ¬ issues1.any (fun i =>
            containsSub ("complexity".data) (pyLower i.title).data) then
        issues1 ++ [complexityIssue o s]
      else issues1
    { s with
        current_file_analyzed_by :=
          s.current_file_analyzed_by ++ ["performance"]
        issues := s.issues ++ issues2 }

/-- The long-function check of `architecture_node`. -/
def longFunctionStep (current_file : String) (acc : List IssueRec)
    (func : FuncInfo) : List IssueRec :=
  if func.error then acc
  else
    let lines := func.line_end - func.line_start
    if lines > 50 then
      let is_duplicate := acc.any (fun i =>
        (locLine i.location - func.line_start).natAbs ≤ 5 ∧
        containsSub ("long".data) (pyLower i.title).data)
      if ¬ is_duplicate then
        acc ++ [{ location := current_file ++ ":" ++ intStr func.line_start
                  type := "architecture"
                  risk_level := "medium"
                  title := "Long Function"
                  description := "Function `" ++ func.name ++ "` is " ++
                    intStr lines ++
                    " lines long. Long functions are harder to understand and test."
                  code_snippet := "def " ++ func.name ++ "(" ++
                    String.intercalate ", " (func.args.take 3) ++ "...):"
                  solution := "Break down into smaller, focused functions with single responsibilities."
                  author := "ArchitectureAgent (Metrics)" }]
      else acc
    else acc

/-- The large-class check of `architecture_node`. -/
def largeClassStep (current_file : String) (acc : List IssueRec)
    (cls : ClassInfo) : List IssueRec :=
  if cls.error then acc
  else
    let method_count := cls.methods.length
    if method_count > 10 then
      let is_duplicate := acc.any (fun i =>
        (locLine i.location - cls.line_start).natAbs ≤ 5 ∧
        (containsSub ("god".data) (pyLower i.title).data ∨
         containsSub ("large".data) (pyLower i.title).data))
      if ¬ is_duplicate then
        acc ++ [{ location := current_file ++ ":" ++ intStr cls.line_start
                  type := "architecture"
                  risk_level := "medium"
                  title := "Large Class (God Object)"
                  description := "Class `" ++ cls.name ++ "` has " ++
                    intStr method_count ++
                    " methods. Large classes often violate Single Responsibility Principle."
                  code_snippet := "class " ++ cls.name ++ ": # " ++
                    intStr method_count ++ " methods"
                  solution := "Consider splitting into smaller, focused classes. Extract related methods into separate classes."
                  author := "ArchitectureAgent (Metrics)" }]
      else acc
    else acc

/-- `architecture_node`. -/
def architecture_node (o : Oracles) (s : AnalysisState) : AnalysisState :=
  if s.current_file_content = "" ∨ s.current_file = "" then
    { s with current_file_analyzed_by :=
        s.current_file_analyzed_by ++ ["architecture"] }
  else
    let llm_issues := llmIssuesOf o "architecture" s.current_file
    let pattern_findings := o.findPat "architecture" s.current_file_content
    let issues1 := pattern_findings.foldl
      (dedupStep (architecturePatternIssue s.current_file)) llm_issues
    let issues2 := (o.functions s.current_file_content).foldl
      (longFunctionStep s.current_file) issues1
    let issues3 := (o.classes s.current_file_content).foldl
      (largeClassStep s.current_file) issues2
    { s with
        current_file_analyzed_by :=
          s.current_file_analyzed_by ++ ["architecture"]
        issues := s.issues ++ issues3 }

/-! ### Manager and compiler nodes, and the graph -/

/-- `manager_node` (`manager.py`): initialisation on `pending`, completion
bookkeeping, selection of the next file, skip-on-read-error, and the move to
compilation.  Progress messages are not modelled. -/
def manager_node (o : Oracles) (s : AnalysisState) : AnalysisState :=
  let init : Option (List String × ScanStatus) :=
    if s.scan_status = ScanStatus.pending then
      if s.files_to_analyze = [] then
        let files1 := o.discovered.filter (fun f => ¬ pyStartsWith f "[ERROR]")
        if files1 = [] then none
        else some (files1, ScanStatus.scanning)
      else some (s.files_to_analyze, ScanStatus.scanning)
    else some (s.files_to_analyze, s.scan_status)
  match init with
  | none =>
      let error_msg :=
        if o.discovered ≠ [] ∧ pyStartsWith (o.discovered.headD "") "[ERROR]"
        then o.discovered.headD ""
        else "No Python files found in " ++ s.target_path
      { s with scan_status := .error, error := error_msg }
  | some (files, status) =>
      let completed : Bool :=
        s.current_file ≠ "" ∧ s.current_file_analyzed_by.length ≥ 3
      let current_file := if completed then "" else s.current_file
      let processed_files :=
        if completed ∧ s.current_file ∉ s.processed_files then
          s.processed_files ++ [s.current_file]
        else s.processed_files
      let analyzed :=
        if completed then [] else s.current_file_analyzed_by
      let remaining := files.filter (fun f => f ∉ processed_files)
      if remaining = [] ∧ current_file = "" then
        { s with
            files_to_analyze := []
            current_file := ""
            current_file_content := ""
            processed_files := processed_files
            current_file_analyzed_by := []
            scan_status := .compiling }
      else if current_file = "" ∧ remaining ≠ [] then
        let next_file := remaining.headD ""
        let rest := remaining.tail
        let content := o.read next_file
        if pyStartsWith content "[ERROR]" then
          { s with
              files_to_analyze := rest
              current_file := ""
              current_file_content := ""
              processed_files := processed_files ++ [next_file]
              current_file_analyzed_by := []
              scan_status := .scanning }
        else
          { s with
              files_to_analyze := rest
              current_file := next_file
              current_file_content := content
              processed_files := processed_files
              current_file_analyzed_by := []
              scan_status := .scanning }
      else
        { s with
            files_to_analyze := if remaining ≠ [] then remaining else files
            current_file := current_file
            processed_files := processed_files
            current_file_analyzed_by := analyzed
            scan_status := status }

/-- `compiler_node`: sets the terminal status and the rendered summary.
Report rendering and ledger persistence (`_persist_issues`) read the state
but change no field other than `summary` and `scan_status`; the rendered
text itself is out of scope for every claim and is left as the fixed marker
below standing for `_generate_summary_with_llm`'s output. -/
def compiler_node (s : AnalysisState) : AnalysisState :=
  { s with scan_status := .done, summary := "summary" }

/-- One step of the compiled LangGraph on the error-free path: run the
current node, then route.  `graphStepE` below carries the uncaught-exception
path of the analyzer nodes. -/
def graphStep (o : Oracles) : AnalysisState × Node → AnalysisState × Node
  | (s, .manager) =>
      let s2 := manager_node o s
      (s2, route_after_manager s2)
  | (s, .security) =>
      let s2 := security_node o s
      (s2, route_after_security s2)
  | (s, .performance) =>
      let s2 := performance_node o s
      (s2, route_after_performance s2)
  | (s, .architecture) =>
      let s2 := architecture_node o s
      (s2, route_after_architecture s2)
  | (s, .compile) =>
      let s2 := compiler_node s
      (s2, route_after_compiler s2)
  | (s, .stop) => (s, .stop)

/-- `create_initial_state`. -/
def create_initial_state (target_path : String) (files : List String) :
    AnalysisState :=
  { target_path := target_path
    files_to_analyze := files
    current_file := ""
    current_file_content := ""
    processed_files := []
    current_file_analyzed_by := []
    issues := []
    scan_status := .pending
    summary := ""
    error := "" }

/-- `n` steps of the graph from the entry point (`manager`), on the
error-free path. -/
def runGraph (o : Oracles) (target_path : String) (files : List String)
    (n : Nat) : AnalysisState × Node :=
  (graphStep o)^[n] (create_initial_state target_path files, Node.manager)

/-- The fixed analyzer order of `route_after_manager`. -/
def analyzerOrder : List String := ["security", "performance", "architecture"]

/-- The first analyzer category not yet recorded for the current file. -/
def firstPending (analyzed : List String) : Option String :=
  analyzerOrder.find? (fun c => ¬ c ∈ analyzed)

def nodeOfCategory (c : String) : Node :=
  if c = "security" then .security
  else if c = "performance" then .performance
  else if c = "architecture" then .architecture
  else .manager

/-! ### The analyzer nodes with Python's error path

The dedup comparisons call `int(issue["location"].split(":")[-1])` inside
lazily evaluated `any(...)` generators, and a non-numeric segment raises an
uncaught `ValueError` that aborts the node.  The functions below model that
path exactly: `none` is the uncaught exception, generators are evaluated
element by element in order with Python's short-circuiting, and `int` is
`pyIntOfString`. -/

/-- `any(abs(int(issue["location"].split(":")[-1]) - line) <= 2 for issue in
issues)`: lazy, left to right, `none` when `int()` raises first. -/
def anyNearE (line : Int) : List IssueRec → Option Bool
  | [] => some false
  | i :: rest =>
      match pyIntOfString (lastColonSeg i.location) with
      | none => none
      | some l =>
          if (l - line).natAbs ≤ 2 then some true
          else anyNearE line rest

/-- One iteration of the rule-finding loop with the error path. -/
def dedupStepE (mk : Finding → IssueRec) (acc : Option (List IssueRec))
    (f : Finding) : Option (List IssueRec) :=
  match acc with
  | none => none
  | some l =>
      match anyNearE f.line_number l with
      | none => none
      | some true => some l
      | some false => some (l ++ [mk f])

/-- The long-function duplicate check: `int` first, then the title test,
short-circuiting per element. -/
def longFunctionAnyE (line_start : Int) : List IssueRec → Option Bool
  | [] => some false
  | i :: rest =>
      match pyIntOfString (lastColonSeg i.location) with
      | none => none
      | some l =>
          if (l - line_start).natAbs ≤ 5 ∧
              containsSub ("long".data) (pyLower i.title).data then some true
          else longFunctionAnyE line_start rest

/-- The long-function check with the error path. -/
def longFunctionStepE (current_file : String) (acc : Option (List IssueRec))
    (func : FuncInfo) : Option (List IssueRec) :=
  match acc with
  | none => none
  | some l =>
      if func.error then some l
      else
        let lines := func.line_end - func.line_start
        if lines > 50 then
          match longFunctionAnyE func.line_start l with
          | none => none
          | some true => some l
          | some false =>
              some (l ++
                [{ location := current_file ++ ":" ++ intStr func.line_start
                   type := "architecture"
                   risk_level := "medium"
                   title := "Long Function"
                   description := "Function `" ++ func.name ++ "` is " ++
                     intStr lines ++
                     " lines long. Long functions are harder to understand and test."
                   code_snippet := "def " ++ func.name ++ "(" ++
                     String.intercalate ", " (func.args.take 3) ++ "...):"
                   solution := "Break down into smaller, focused functions with single responsibilities."
                   author := "ArchitectureAgent (Metrics)" }])
        else some l

/-- The large-class duplicate check with the error path. -/
def largeClassAnyE (line_start : Int) : List IssueRec → Option Bool
  | [] => some false
  | i :: rest =>
      match pyIntOfString (lastColonSeg i.location) with
      | none => none
      | some l =>
          if (l - line_start).natAbs ≤ 5 ∧
              (containsSub ("god".data) (pyLower i.title).data ∨
               containsSub ("large".data) (pyLower i.title).data) then some true
          else largeClassAnyE line_start rest

/-- The large-class check with the error path. -/
def largeClassStepE (current_file : String) (acc : Option (List IssueRec))
    (cls : ClassInfo) : Option (List IssueRec) :=
  match acc with
  | none => none
  | some l =>
      if cls.error then some l
      else
        let method_count := cls.methods.length
        if method_count > 10 then
          match largeClassAnyE cls.line_start l with
          | none => none
          | some true => some l
          | some false =>
              some (l ++
                [{ location := current_file ++ ":" ++ intStr cls.line_start
                   type := "architecture"
                   risk_level := "medium"
                   title := "Large Class (God Object)"
                   description := "Class `" ++ cls.name ++ "` has " ++
                     intStr method_count ++
                     " methods. Large classes often violate Single Responsibility Principle."
                   code_snippet := "class " ++ cls.name ++ ": # " ++
                     intStr method_count ++ " methods"
                   solution := "Consider splitting into smaller, focused classes. Extract related methods into separate classes."
                   author := "ArchitectureAgent (Metrics)" }])
        else some l

/-- `security_node` with the error path: `none` is the uncaught
`ValueError` of the dedup loop. -/
def security_nodeE (o : Oracles) (s : AnalysisState) : Option AnalysisState :=
  if s.current_file_content = "" ∨ s.current_file = "" then
    some { s with
        current_file_analyzed_by := s.current_file_analyzed_by ++ ["security"] }
  else
    match (o.findPat "security" s.current_file_content).foldl
        (dedupStepE (securityPatternIssue s.current_file))
        (some (llmIssuesOf o "security" s.current_file)) with
    | none => none
    | some issues =>
        some { s with
            current_file_analyzed_by :=
              s.current_file_analyzed_by ++ ["security"]
            issues := s.issues ++ issues }

/-- `performance_node` with the error path (the complexity duplicate check
compares titles only and cannot raise). -/
def performance_nodeE (o : Oracles) (s : AnalysisState) :
    Option AnalysisState :=
  if s.current_file_content = "" ∨ s.current_file = "" then
    some { s with
        current_file_analyzed_by :=
          s.current_file_analyzed_by ++ ["performance"] }
  else
    match (o.findPat "performance" s.current_file_content).foldl
        (dedupStepE (performancePatternIssue s.current_file))
        (some (llmIssuesOf o "performance" s.current_file)) with
    | none => none
    | some issues1 =>
        let issues2 :=
          if o.complexity s.current_file_content > 50 ∧
              ¬ issues1.any (fun i =>
                containsSub ("complexity".data) (pyLower i.title).data) then
            issues1 ++ [complexityIssue o s]
          else issues1
        some { s with
            current_file_analyzed_by :=
              s.current_file_analyzed_by ++ ["performance"]
            issues := s.issues ++ issues2 }

/-- `architecture_node` with the error path: the dedup loop and both metric
loops can raise. -/
def architecture_nodeE (o : Oracles) (s : AnalysisState) :
    Option AnalysisState :=
  if s.current_file_content = "" ∨ s.current_file = "" then
    some { s with
        current_file_analyzed_by :=
          s.current_file_analyzed_by ++ ["architecture"] }
  else
    match (o.findPat "architecture" s.current_file_content).foldl
        (dedupStepE (architecturePatternIssue s.current_file))
        (some (llmIssuesOf o "architecture" s.current_file)) with
    | none => none
    | some issues1 =>
        match (o.functions s.current_file_content).foldl
            (longFunctionStepE s.current_file) (some issues1) with
        | none => none
        | some issues2 =>
            match (o.classes s.current_file_content).foldl
                (largeClassStepE s.current_file) (some issues2) with
            | none => none
            | some issues3 =>
                some { s with
                    current_file_analyzed_by :=
                      s.current_file_analyzed_by ++ ["architecture"]
                    issues := s.issues ++ issues3 }

/-- One step of the compiled graph with the error path: an uncaught node
exception aborts the whole run. -/
def graphStepE (o : Oracles) :
    AnalysisState × Node → Option (AnalysisState × Node)
  | (s, .manager) =>
      let s2 := manager_node o s
      some (s2, route_after_manager s2)
  | (s, .security) =>
      match security_nodeE o s with
      | none => none
      | some s2 => some (s2, route_after_security s2)
  | (s, .performance) =>
      match performance_nodeE o s with
      | none => none
      | some s2 => some (s2, route_after_performance s2)
  | (s, .architecture) =>
      match architecture_nodeE o s with
      | none => none
      | some s2 => some (s2, route_after_architecture s2)
  | (s, .compile) =>
      let s2 := compiler_node s
      some (s2, route_after_compiler s2)
  | (s, .stop) => some (s, .stop)

/-- `n` steps of the graph from the entry point, aborting on an uncaught
exception. -/
def runGraphE (o : Oracles) (target_path : String) (files : List String)
    (n : Nat) : Option (AnalysisState × Node) :=
  (fun p => p.bind (graphStepE o))^[n]
    (some (create_initial_state target_path files, Node.manager))

/-- Locations whose line segment `int()` accepts. -/
@[reducible]
def LinesParsable (l : List IssueRec) : Prop :=
  ∀ i ∈ l, (pyIntOfString (lastColonSeg i.location)).isSome

/-! ### Decimal rendering round-trip

`locLine` recovers the line number from a location the analyzers build as
`file ++ ":" ++ intStr line`. -/

theorem char_ofNat_digit_toNat {k : Nat} (hk : k < 10) :
    (Char.ofNat (48 + k)).toNat = 48 + k := by
  interval_cases k <;> decide

theorem natDigitsAux_digit {fuel m : Nat} {c : Char}
    (hc : c ∈ natDigitsAux fuel m) : 48 ≤ c.toNat ∧ c.toNat ≤ 57 := by
  induction fuel generalizing m with
  | zero => cases hc
  | succ fuel ih =>
      unfold natDigitsAux at hc
      split at hc
      · next h =>
          rw [List.mem_singleton.mp hc, char_ofNat_digit_toNat h]
          omega
      · rcases List.mem_append.mp hc with h' | h'
        · exact ih h'
        · have h10 : m % 10 < 10 := Nat.mod_lt _ (by omega)
          rw [List.mem_singleton.mp h', char_ofNat_digit_toNat h10]
          omega

theorem natDigits_digit {m : Nat} {c : Char} (hc : c ∈ natDigits m) :
    48 ≤ c.toNat ∧ c.toNat ≤ 57 :=
  natDigitsAux_digit hc

theorem natDigitsAux_foldl (fuel : Nat) :
    ∀ m acc, m < 10 ^ fuel →
      (natDigitsAux fuel m).foldl (fun a c => a * 10 + (c.toNat - 48)) acc =
        acc * 10 ^ (natDigitsAux fuel m).length + m := by
  induction fuel with
  | zero =>
      intro m acc hm
      have : m = 0 := by omega
      subst this
      simp [natDigitsAux]
  | succ fuel ih =>
      intro m acc hm
      unfold natDigitsAux
      split
      · next h =>
          simp [char_ofNat_digit_toNat h]
      · next h =>
          push_neg at h
          have hdiv : m / 10 < 10 ^ fuel := by
            rw [Nat.div_lt_iff_lt_mul (by omega)]
            calc m < 10 ^ (fuel + 1) := hm
              _ = 10 ^ fuel * 10 := by ring
          rw [List.foldl_append, ih (m / 10) acc hdiv]
          have h10 : m % 10 < 10 := Nat.mod_lt _ (by omega)
          simp [char_ofNat_digit_toNat h10, List.length_append]
          ring_nf
          omega

theorem m_lt_ten_pow (m : Nat) : m < 10 ^ (m + 1) := by
  induction m with
  | zero => decide
  | succ m ih =>
      have : 10 ^ (m + 1) ≥ 1 := Nat.one_le_pow _ _ (by omega)
      calc m + 1 < 10 ^ (m + 1) + 1 := by omega
        _ ≤ 10 ^ (m + 1 + 1) := by
            rw [pow_succ]
            omega

theorem digitsToNat_natDigits (m : Nat) : digitsToNat? (natDigits m) = some m := by
  unfold digitsToNat?
  rw [if_pos]
  · congr 1
    have := natDigitsAux_foldl (m + 1) m 0 (m_lt_ten_pow m)
    unfold natDigits
    rw [this]
    ring
  · constructor
    · exact natDigits_ne_nil m
    · rw [List.all_eq_true]
      intro c hc
      have hdig := natDigits_digit hc
      show c.isDigit = true
      simp only [Char.isDigit, Bool.and_eq_true, decide_eq_true_eq, ge_iff_le,
        UInt32.le_def, BitVec.le_def]
      have he : c.toNat = c.val.toBitVec.toNat := rfl
      have h48 : (UInt32.toBitVec 48).toNat = 48 := rfl
      have h57 : (UInt32.toBitVec 57).toNat = 57 := rfl
      omega

theorem natDigits_not_ws {m : Nat} {c : Char} (hc : c ∈ natDigits m) :
    isPyWs c = false := by
  have h := natDigits_digit hc
  have : c.toNat ≠ 32 ∧ c.toNat ≠ 9 ∧ c.toNat ≠ 10 ∧ c.toNat ≠ 13 ∧
      c.toNat ≠ 11 ∧ c.toNat ≠ 12 := by omega
  unfold isPyWs
  simp only [decide_eq_false_iff_not, not_or]
  refine ⟨?_, ?_, ?_, ?_, ?_, ?_⟩ <;> intro h' <;> rw [h'] at this <;> simp_all

theorem dropWhile_eq_self_of_head {p : Char → Bool} {c : Char}
    {l : List Char} (h : p c = false) : (c :: l).dropWhile p = c :: l := by
  rw [List.dropWhile_cons, h]
  simp

/-- `intStr` strings carry no whitespace at either end, so Python's strip
leaves them unchanged. -/
theorem strip_intStr (n : Int) :
    ((((intStr n).data.dropWhile isPyWs).reverse.dropWhile isPyWs).reverse) =
      (intStr n).data := by
  have hdata : ∀ l : List Char, l ≠ [] → (∀ c ∈ l, isPyWs c = false) →
      ((l.dropWhile isPyWs).reverse.dropWhile isPyWs).reverse = l := by
    intro l hne hall
    cases hl : l with
    | nil => exact absurd hl hne
    | cons c rest =>
        rw [dropWhile_eq_self_of_head (hall c (by rw [hl]; simp))]
        cases hrev : (c :: rest).reverse with
        | nil => simp at hrev
        | cons d rrest =>
            have hd : d ∈ l := by
              rw [hl, ← List.mem_reverse, hrev]
              simp
            rw [dropWhile_eq_self_of_head (hall d hd)]
            rw [← hrev]
            exact List.reverse_reverse _
  apply hdata
  · exact (string_ne_empty_iff _).mp (intStr_ne_empty n)
  · intro c hc
    unfold intStr at hc
    by_cases hn : n < 0
    · rw [if_pos hn] at hc
      have hc2 : c ∈ '-' :: natDigits n.natAbs := hc
      rcases List.mem_cons.mp hc2 with rfl | h'
      · decide
      · exact natDigits_not_ws h'
    · rw [if_neg hn] at hc
      have hc2 : c ∈ natDigits n.natAbs := hc
      exact natDigits_not_ws hc2

theorem char_ne_of_toNat_ne {c d : Char} (h : c.toNat ≠ d.toNat) : c ≠ d :=
  fun he => h (congrArg Char.toNat he)

theorem pyIntOfString_intStr (n : Int) : pyIntOfString (intStr n) = some n := by
  unfold pyIntOfString
  rw [strip_intStr]
  by_cases hn : n < 0
  · have hd : (intStr n).data = '-' :: natDigits n.natAbs := by
      unfold intStr
      rw [if_pos hn]
    rw [hd]
    simp only [pyIntChars, if_pos rfl, digitsToNat_natDigits, Option.map_some]
    show some (-(n.natAbs : Int)) = some n
    have he : -((n.natAbs : Nat) : Int) = n := by omega
    rw [he]
  · have hd0 : (intStr n).data = natDigits n.natAbs := by
      unfold intStr
      rw [if_neg hn]
    rw [hd0]
    cases hd : natDigits n.natAbs with
    | nil => exact absurd hd (natDigits_ne_nil _)
    | cons c ds =>
        have hcd : c ∈ natDigits n.natAbs := by
          rw [hd]
          simp
        have hdig := natDigits_digit hcd
        have hne1 : c ≠ '-' := char_ne_of_toNat_ne (by
          show c.toNat ≠ 45
          omega)
        have hne2 : c ≠ '+' := char_ne_of_toNat_ne (by
          show c.toNat ≠ 43
          omega)
        simp only [pyIntChars, if_neg hne1, if_neg hne2, ← hd,
          digitsToNat_natDigits, Option.map_some]
        show some ((n.natAbs : Int)) = some n
        have he : ((n.natAbs : Nat) : Int) = n := by omega
        rw [he]

theorem takeWhile_append_stop {p : Char → Bool} {l₁ : List Char}
    (h1 : ∀ x ∈ l₁, p x = true) {c : Char} (hc : p c = false)
    (l₂ : List Char) : (l₁ ++ c :: l₂).takeWhile p = l₁ := by
  induction l₁ with
  | nil => simp [List.takeWhile_cons, hc]
  | cons a l ih =>
      simp [List.takeWhile_cons, h1 a (by simp),
        ih (fun x hx => h1 x (by simp [hx]))]

theorem intStr_chars_ne_colon {n : Int} {c : Char} (hc : c ∈ (intStr n).data) :
    (c ≠ ':') = True := by
  simp only [eq_iff_iff, iff_true]
  apply char_ne_of_toNat_ne
  show c.toNat ≠ 58
  unfold intStr at hc
  by_cases hn : n < 0
  · rw [if_pos hn] at hc
    have hc2 : c ∈ '-' :: natDigits n.natAbs := hc
    rcases List.mem_cons.mp hc2 with rfl | h'
    · decide
    · have := natDigits_digit h'
      omega
  · rw [if_neg hn] at hc
    have hc2 : c ∈ natDigits n.natAbs := hc
    have := natDigits_digit hc2
    omega

theorem lastColonSeg_append (cf : String) (n : Int) :
    lastColonSeg (cf ++ ":" ++ intStr n) = intStr n := by
  unfold lastColonSeg
  have hdata : (cf ++ ":" ++ intStr n).data =
      cf.data ++ ':' :: (intStr n).data := by
    rw [String.data_append, String.data_append, List.append_assoc]
    rfl
  rw [hdata, List.reverse_append]
  have hrev : (':' :: (intStr n).data).reverse =
      (intStr n).data.reverse ++ [':'] := by
    simp
  rw [hrev, List.append_assoc, List.cons_append, List.nil_append]
  have h1 : ∀ x ∈ (intStr n).data.reverse, decide (x ≠ ':') = true := by
    intro x hx
    rw [List.mem_reverse] at hx
    simp only [decide_eq_true_eq]
    have := intStr_chars_ne_colon hx
    simp_all
  have hc : decide ((':' : Char) ≠ ':') = false := by decide
  rw [takeWhile_append_stop h1 hc]
  rw [List.reverse_reverse]

/-- Locations built as `file ++ ":" ++ str(line)` round-trip through the
dedup line extraction. -/
theorem locLine_roundtrip (cf : String) (n : Int) :
    locLine (cf ++ ":" ++ intStr n) = n := by
  unfold locLine
  rw [lastColonSeg_append, pyIntOfString_intStr]
  rfl

/-! ### Deduplication lemmas -/

/-- Soundness of one dedup run: each appended element is the pattern issue of
a finding lying more than two lines from every issue accepted before it. -/
def DedupSound (mk : Finding → IssueRec) (prev : List IssueRec) :
    List IssueRec → Prop
  | [] => True
  | x :: rest =>
      ((∃ f : Finding, x = mk f ∧
        ∀ y ∈ prev, (locLine y.location - f.line_number).natAbs > 2) ∧
      DedupSound mk (prev ++ [x]) rest)

theorem any_isNear_false {init : List IssueRec} {line : Int}
    (h : ¬ init.any (fun i => isNearLine i line) = true) :
    ∀ y ∈ init, (locLine y.location - line).natAbs > 2 := by
  intro y hy
  by_contra hle
  apply h
  rw [List.any_eq_true]
  refine ⟨y, hy, ?_⟩
  unfold isNearLine
  simp only [decide_eq_true_eq]
  omega

theorem dedupStep_eq_pos {mk : Finding → IssueRec} {init : List IssueRec}
    {f : Finding} (h : (init.any fun i => isNearLine i f.line_number) = true) :
    dedupStep mk init f = init := by
  unfold dedupStep
  rw [if_pos h]

theorem dedupStep_eq_neg {mk : Finding → IssueRec} {init : List IssueRec}
    {f : Finding}
    (h : ¬ (init.any fun i => isNearLine i f.line_number) = true) :
    dedupStep mk init f = init ++ [mk f] := by
  unfold dedupStep
  rw [if_neg h]

/-- The dedup fold appends a sound tail to its accepted prefix. -/
theorem dedup_fold_shape (mk : Finding → IssueRec) (findings : List Finding) :
    ∀ init, ∃ extra,
      findings.foldl (dedupStep mk) init = init ++ extra ∧
      DedupSound mk init extra := by
  induction findings with
  | nil =>
      intro init
      exact ⟨[], by simp, trivial⟩
  | cons f fs ih =>
      intro init
      rw [List.foldl_cons]
      by_cases hc : (init.any fun i => isNearLine i f.line_number) = true
      · rw [dedupStep_eq_pos hc]
        exact ih init
      · rw [dedupStep_eq_neg hc]
        obtain ⟨extra, hfold, hsound⟩ := ih (init ++ [mk f])
        refine ⟨mk f :: extra, ?_, ?_⟩
        · rw [hfold, List.append_assoc]
          rfl
        · exact ⟨⟨f, rfl, any_isNear_false hc⟩, hsound⟩

/-- Every element of the folded output is an initially-accepted issue or the
pattern issue of a processed finding. -/
theorem dedup_fold_mem (mk : Finding → IssueRec) :
    ∀ (findings : List Finding) (init : List IssueRec) (x : IssueRec),
      x ∈ findings.foldl (dedupStep mk) init →
      x ∈ init ∨ ∃ f ∈ findings, x = mk f := by
  intro findings
  induction findings with
  | nil =>
      intro init x hx
      exact Or.inl hx
  | cons g gs ih =>
      intro init x hx
      rw [List.foldl_cons] at hx
      by_cases hc : (init.any fun i => isNearLine i g.line_number) = true
      · rw [dedupStep_eq_pos hc] at hx
        rcases ih init x hx with h | ⟨f, hf, rfl⟩
        · exact Or.inl h
        · exact Or.inr ⟨f, by simp [hf], rfl⟩
      · rw [dedupStep_eq_neg hc] at hx
        rcases ih (init ++ [mk g]) x hx with h | ⟨f, hf, rfl⟩
        · rcases List.mem_append.mp h with h' | h'
          · exact Or.inl h'
          · exact Or.inr ⟨g, by simp, List.mem_singleton.mp h'⟩
        · exact Or.inr ⟨f, by simp [hf], rfl⟩

/-- No finding is dropped silently: every processed finding ends within two
lines of some issue in the folded output. -/
theorem dedup_fold_coverage (mk : Finding → IssueRec)
    (hmk : ∀ f, locLine (mk f).location = f.line_number) :
    ∀ (findings : List Finding) (init : List IssueRec),
      ∀ f ∈ findings, ∃ y ∈ findings.foldl (dedupStep mk) init,
        (locLine y.location - f.line_number).natAbs ≤ 2 := by
  intro findings
  induction findings with
  | nil =>
      intro init f hf
      cases hf
  | cons g gs ih =>
      intro init f hf
      rw [List.foldl_cons]
      by_cases hc : (init.any fun i => isNearLine i g.line_number) = true
      · rw [dedupStep_eq_pos hc]
        rcases List.mem_cons.mp hf with rfl | hf'
        · rw [List.any_eq_true] at hc
          obtain ⟨y, hy, hnear⟩ := hc
          unfold isNearLine at hnear
          simp only [decide_eq_true_eq] at hnear
          obtain ⟨extra, hfold, -⟩ := dedup_fold_shape mk gs init
          exact ⟨y, by rw [hfold]; exact List.mem_append.mpr (Or.inl hy),
            hnear⟩
        · exact ih init f hf'
      · rw [dedupStep_eq_neg hc]
        rcases List.mem_cons.mp hf with rfl | hf'
        · obtain ⟨extra, hfold, -⟩ := dedup_fold_shape mk gs (init ++ [mk f])
          refine ⟨mk f, ?_, ?_⟩
          · rw [hfold]
            exact List.mem_append.mpr (Or.inl (by simp))
          · rw [hmk f]
            simp
        · exact ih (init ++ [mk g]) f hf'

theorem securityPatternIssue_locLine (cf : String) (f : Finding) :
    locLine (securityPatternIssue cf f).location = f.line_number :=
  locLine_roundtrip cf f.line_number

/-! ### Node-level lemmas -/

theorem parse_llm_issues_loc {i : IssueRec} {r fp t : String}
    (h : i ∈ parse_llm_issues r fp t) :
    ∃ rst, i.location = fp ++ ":" ++ rst := by
  obtain ⟨items, heq⟩ := parse_llm_issues_shape r fp t
  rw [heq] at h
  obtain ⟨kvs, rfl⟩ := mem_convertToIssueFormat h
  exact ⟨_, rfl⟩

theorem llmIssuesOf_loc {i : IssueRec} {o : Oracles} {cat cf : String}
    (h : i ∈ llmIssuesOf o cat cf) :
    ∃ rst, i.location = cf ++ ":" ++ rst := by
  unfold llmIssuesOf at h
  split at h
  · cases h
  · split at h
    · exact parse_llm_issues_loc h
    · cases h

theorem security_node_analyzed (o : Oracles) (s : AnalysisState) :
    (security_node o s).current_file_analyzed_by =
      s.current_file_analyzed_by ++ ["security"] := by
  unfold security_node
  split <;> rfl

theorem performance_node_analyzed (o : Oracles) (s : AnalysisState) :
    (performance_node o s).current_file_analyzed_by =
      s.current_file_analyzed_by ++ ["performance"] := by
  unfold performance_node
  split <;> rfl

theorem architecture_node_analyzed (o : Oracles) (s : AnalysisState) :
    (architecture_node o s).current_file_analyzed_by =
      s.current_file_analyzed_by ++ ["architecture"] := by
  unfold architecture_node
  split <;> rfl

theorem security_node_issues_append (o : Oracles) (s : AnalysisState) :
    ∃ new, (security_node o s).issues = s.issues ++ new := by
  unfold security_node
  split
  · exact ⟨[], by simp⟩
  · exact ⟨_, rfl⟩

theorem performance_node_issues_append (o : Oracles) (s : AnalysisState) :
    ∃ new, (performance_node o s).issues = s.issues ++ new := by
  unfold performance_node
  split
  · exact ⟨[], by simp⟩
  · exact ⟨_, rfl⟩

theorem architecture_node_issues_append (o : Oracles) (s : AnalysisState) :
    ∃ new, (architecture_node o s).issues = s.issues ++ new := by
  unfold architecture_node
  split
  · exact ⟨[], by simp⟩
  · exact ⟨_, rfl⟩

theorem longFunc_fold_mem (cf : String) :
    ∀ (l : List FuncInfo) (acc : List IssueRec) (x : IssueRec),
      x ∈ l.foldl (longFunctionStep cf) acc →
      x ∈ acc ∨ ∃ rst, x.location = cf ++ ":" ++ rst := by
  intro l
  induction l with
  | nil =>
      intro acc x hx
      exact Or.inl hx
  | cons fn fns ih =>
      intro acc x hx
      rw [List.foldl_cons] at hx
      rcases ih _ x hx with h | h
      · unfold longFunctionStep at h
        split at h
        · exact Or.inl h
        · dsimp only at h
          split at h
          · split at h
            · rcases List.mem_append.mp h with h' | h'
              · exact Or.inl h'
              · right
                rw [List.mem_singleton.mp h']
                exact ⟨_, rfl⟩
            · exact Or.inl h
          · exact Or.inl h
      · exact Or.inr h

theorem largeClass_fold_mem (cf : String) :
    ∀ (l : List ClassInfo) (acc : List IssueRec) (x : IssueRec),
      x ∈ l.foldl (largeClassStep cf) acc →
      x ∈ acc ∨ ∃ rst, x.location = cf ++ ":" ++ rst := by
  intro l
  induction l with
  | nil =>
      intro acc x hx
      exact Or.inl hx
  | cons cl cls ih =>
      intro acc x hx
      rw [List.foldl_cons] at hx
      rcases ih _ x hx with h | h
      · unfold largeClassStep at h
        split at h
        · exact Or.inl h
        · dsimp only at h
          split at h
          · split at h
            · rcases List.mem_append.mp h with h' | h'
              · exact Or.inl h'
              · right
                rw [List.mem_singleton.mp h']
                exact ⟨_, rfl⟩
            · exact Or.inl h
          · exact Or.inl h
      · exact Or.inr h

/-- Every issue the security node emits is an inherited one or is located in
the current file. -/
theorem security_node_issue_loc (o : Oracles) (s : AnalysisState) :
    ∀ i ∈ (security_node o s).issues,
      i ∈ s.issues ∨ ∃ rst, i.location = s.current_file ++ ":" ++ rst := by
  unfold security_node
  split
  · intro i hi
    exact Or.inl hi
  · intro i hi
    rcases List.mem_append.mp hi with h | h
    · exact Or.inl h
    · right
      rcases dedup_fold_mem _ _ _ _ h with h' | ⟨f, -, rfl⟩
      · exact llmIssuesOf_loc h'
      · exact ⟨_, rfl⟩

theorem performance_node_issue_loc (o : Oracles) (s : AnalysisState) :
    ∀ i ∈ (performance_node o s).issues,
      i ∈ s.issues ∨ ∃ rst, i.location = s.current_file ++ ":" ++ rst := by
  unfold performance_node
  split
  · intro i hi
    exact Or.inl hi
  · intro i hi
    rcases List.mem_append.mp hi with h | h
    · exact Or.inl h
    · right
      have hfold : ∀ j, j ∈ (o.findPat "performance" s.current_file_content).foldl
          (dedupStep (performancePatternIssue s.current_file))
          (llmIssuesOf o "performance" s.current_file) →
          ∃ rst, j.location = s.current_file ++ ":" ++ rst := by
        intro j hj
        rcases dedup_fold_mem _ _ _ _ hj with h' | ⟨f, -, rfl⟩
        · exact llmIssuesOf_loc h'
        · exact ⟨_, rfl⟩
      split at h
      · rcases List.mem_append.mp h with h' | h'
        · exact hfold i h'
        · rw [List.mem_singleton.mp h']
          exact ⟨_, rfl⟩
      · exact hfold i h

theorem architecture_node_issue_loc (o : Oracles) (s : AnalysisState) :
    ∀ i ∈ (architecture_node o s).issues,
      i ∈ s.issues ∨ ∃ rst, i.location = s.current_file ++ ":" ++ rst := by
  unfold architecture_node
  split
  · intro i hi
    exact Or.inl hi
  · intro i hi
    rcases List.mem_append.mp hi with h | h
    · exact Or.inl h
    · right
      rcases largeClass_fold_mem _ _ _ _ h with h2 | h2
      · rcases longFunc_fold_mem _ _ _ _ h2 with h3 | h3
        · rcases dedup_fold_mem _ _ _ _ h3 with h' | ⟨f, -, rfl⟩
          · exact llmIssuesOf_loc h'
          · exact ⟨_, rfl⟩
        · exact h3
      · exact h2

/-! ### Routing lemmas -/

theorem route_after_security_no_error {s : AnalysisState} (h : s.error = "") :
    route_after_security s = .performance := by
  unfold route_after_security
  rw [if_neg (by simp [h])]

theorem route_after_performance_no_error {s : AnalysisState}
    (h : s.error = "") : route_after_performance s = .architecture := by
  unfold route_after_performance
  rw [if_neg (by simp [h])]

theorem route_after_architecture_no_error {s : AnalysisState}
    (h : s.error = "") : route_after_architecture s = .manager := by
  unfold route_after_architecture
  rw [if_neg (by simp [h])]

/-- With no error, outside compilation, and a current file with content, the
manager's router picks the first analyzer category not yet recorded, in the
fixed order security → performance → architecture. -/
theorem route_after_manager_order {s : AnalysisState} (he : s.error = "")
    (hc : s.scan_status ≠ .compiling) (hf : s.current_file ≠ "")
    (hcc : s.current_file_content ≠ "") :
    route_after_manager s =
      (match firstPending s.current_file_analyzed_by with
       | some c => nodeOfCategory c
       | none => .manager) := by
  unfold route_after_manager firstPending analyzerOrder nodeOfCategory
  rw [if_neg (by simp [he]), if_neg (by simp [hc]), if_pos ⟨hf, hcc⟩]
  by_cases h1 : "security" ∈ s.current_file_analyzed_by <;>
    by_cases h2 : "performance" ∈ s.current_file_analyzed_by <;>
      by_cases h3 : "architecture" ∈ s.current_file_analyzed_by <;>
        simp [h1, h2, h3, List.find?]

/-! ### Health score (`compiler.py`, `_calculate_health_score`) -/

/-- The four penalty accumulators of the scoring loop. -/
structure Penalties where
  critical_penalty : Nat
  high_penalty : Nat
  medium_penalty : Nat
  low_penalty : Nat
deriving DecidableEq, Repr

/-- One iteration of the `for issue in issues` loop: `risk_level` is always
present on the dictionaries the compiler receives, so `issue.get` is the
field itself, and every unrecognised value falls to the `else` branch. -/
def penaltyStep (p : Penalties) (issue : IssueRec) : Penalties :=
  let risk := issue.risk_level
  if risk = "critical" then
    { p with critical_penalty := p.critical_penalty + 15 }
  else if risk = "high" then
    { p with high_penalty := p.high_penalty + 8 }
  else if risk = "medium" then
    { p with medium_penalty := p.medium_penalty + 3 }
  else
    { p with low_penalty := p.low_penalty + 1 }

/-- `_calculate_health_score`.  The float comparison
`len(issues) / file_count < 5` is exact and equals
`issues.length < 5 * file_count` once `file_count > 0`. -/
def calculate_health_score (issues : List IssueRec) (file_count : Nat) : Int :=
  if file_count = 0 then 100
  else
    let p := issues.foldl penaltyStep ⟨0, 0, 0, 0⟩
    let score : Int := 100 - ↑(min p.critical_penalty 60)
      - ↑(min p.high_penalty 40) - ↑(min p.medium_penalty 30)
      - ↑(min p.low_penalty 10)
    let score := if issues.length < 5 * file_count then score + 5 else score
    max 0 (min 100 score)

theorem penaltyStep_critical (p : Penalties) {i : IssueRec}
    (h : i.risk_level = "critical") :
    penaltyStep p i = { p with critical_penalty := p.critical_penalty + 15 } := by
  unfold penaltyStep
  rw [h]
  rfl

/-- Appending one critical issue bumps the critical accumulator by 15 and
leaves the other three unchanged. -/
theorem foldl_penalty_append_critical (issues : List IssueRec) {i : IssueRec}
    (h : i.risk_level = "critical") :
    (issues ++ [i]).foldl penaltyStep ⟨0, 0, 0, 0⟩ =
      { issues.foldl penaltyStep ⟨0, 0, 0, 0⟩ with
        critical_penalty :=
          (issues.foldl penaltyStep ⟨0, 0, 0, 0⟩).critical_penalty + 15 } := by
  rw [List.foldl_append]
  show penaltyStep _ i = _
  exact penaltyStep_critical _ h

/-- Appending one critical issue never increases the health score. -/
theorem calculate_health_score_critical_mono (issues : List IssueRec)
    (n : Nat) (i : IssueRec) (hc : i.risk_level = "critical") :
    calculate_health_score (issues ++ [i]) n ≤
      calculate_health_score issues n := by
  unfold calculate_health_score
  by_cases h0 : n = 0
  · rw [if_pos h0, if_pos h0]
  · rw [if_neg h0, if_neg h0]
    dsimp only
    rw [foldl_penalty_append_critical issues hc, List.length_append]
    set p := issues.foldl penaltyStep ⟨0, 0, 0, 0⟩ with hp
    dsimp only
    have hmin : min p.critical_penalty 60 ≤ min (p.critical_penalty + 15) 60 :=
      min_le_min (Nat.le_add_right _ _) le_rfl
    apply max_le_max le_rfl
    apply min_le_min le_rfl
    have hmin' : (↑(min p.critical_penalty 60) : Int) ≤
        ↑(min (p.critical_penalty + 15) 60) := by exact_mod_cast hmin
    by_cases hlen : issues.length + 1 < 5 * n
    · rw [if_pos (by simpa using hlen), if_pos (by omega)]
      omega
    · rw [if_neg (by simpa using hlen)]
      by_cases hlen2 : issues.length < 5 * n
      · rw [if_pos hlen2]
        omega
      · rw [if_neg hlen2]
        omega

/-- The health score is clamped to `[0, 100]`. -/
theorem calculate_health_score_bounds (issues : List IssueRec) (n : Nat) :
    0 ≤ calculate_health_score issues n ∧
      calculate_health_score issues n ≤ 100 := by
  unfold calculate_health_score
  split
  · norm_num
  · dsimp only
    exact ⟨le_max_left 0 _, max_le (by norm_num) (min_le_left _ _)⟩

/-! ### Agreement of the error-path model with the error-free model

On states whose accepted issues all carry `int()`-parsable line segments —
in particular whenever the collaborator's issues do, since every
pattern-built location ends in a rendered integer — no dedup comparison
raises and the `…E` functions return `some` of the error-free result. -/

theorem patternLoc_parsable (cf : String) (n : Int) :
    (pyIntOfString (lastColonSeg (cf ++ ":" ++ intStr n))).isSome := by
  rw [lastColonSeg_append, pyIntOfString_intStr]
  rfl

theorem LinesParsable.append {l : List IssueRec} {x : IssueRec}
    (h : LinesParsable l)
    (hx : (pyIntOfString (lastColonSeg x.location)).isSome) :
    LinesParsable (l ++ [x]) := by
  intro i hi
  rcases List.mem_append.mp hi with hi' | hi'
  · exact h i hi'
  · rw [List.mem_singleton.mp hi']
    exact hx

theorem anyNearE_eq (line : Int) :
    ∀ {issues : List IssueRec}, LinesParsable issues →
      anyNearE line issues =
        some (issues.any (fun i => isNearLine i line)) := by
  intro issues
  induction issues with
  | nil =>
      intro h
      rfl
  | cons i rest ih =>
      intro h
      obtain ⟨l, hl⟩ := Option.isSome_iff_exists.mp (h i (by simp))
      have hrest : LinesParsable rest := fun j hj => h j (by simp [hj])
      show (match pyIntOfString (lastColonSeg i.location) with
        | none => none
        | some l =>
            if (l - line).natAbs ≤ 2 then some true
            else anyNearE line rest) = _
      rw [hl]
      dsimp only
      have hloc : locLine i.location = l := by
        unfold locLine
        rw [hl]
        rfl
      by_cases hc : (l - line).natAbs ≤ 2
      · rw [if_pos hc]
        have hfi : isNearLine i line = true := by
          unfold isNearLine
          rw [hloc]
          exact decide_eq_true hc
        simp only [List.any_cons, hfi, Bool.true_or, Bool.false_or]
      · rw [if_neg hc, ih hrest]
        have hfi : isNearLine i line = false := by
          unfold isNearLine
          rw [hloc]
          exact decide_eq_false hc
        simp only [List.any_cons, hfi, Bool.true_or, Bool.false_or]

theorem dedupStepE_eq (mk : Finding → IssueRec)
    (hpm : ∀ f, (pyIntOfString (lastColonSeg (mk f).location)).isSome)
    (acc : List IssueRec) (f : Finding) (h : LinesParsable acc) :
    dedupStepE mk (some acc) f = some (dedupStep mk acc f) ∧
    LinesParsable (dedupStep mk acc f) := by
  have hany := anyNearE_eq f.line_number h
  by_cases hb : acc.any (fun i => isNearLine i f.line_number) = true
  · rw [dedupStep_eq_pos hb]
    refine ⟨?_, h⟩
    show (match anyNearE f.line_number acc with
      | none => none
      | some true => some acc
      | some false => some (acc ++ [mk f])) = some acc
    rw [hany, hb]
  · have hb' : acc.any (fun i => isNearLine i f.line_number) = false :=
      Bool.eq_false_iff.mpr hb
    rw [dedupStep_eq_neg hb]
    refine ⟨?_, h.append (hpm f)⟩
    show (match anyNearE f.line_number acc with
      | none => none
      | some true => some acc
      | some false => some (acc ++ [mk f])) = some (acc ++ [mk f])
    rw [hany, hb']

theorem dedup_foldE_eq (mk : Finding → IssueRec)
    (hpm : ∀ f, (pyIntOfString (lastColonSeg (mk f).location)).isSome) :
    ∀ (findings : List Finding) (init : List IssueRec), LinesParsable init →
      findings.foldl (dedupStepE mk) (some init) =
        some (findings.foldl (dedupStep mk) init) ∧
      LinesParsable (findings.foldl (dedupStep mk) init) := by
  intro findings
  induction findings with
  | nil =>
      intro init h
      exact ⟨rfl, h⟩
  | cons f fs ih =>
      intro init h
      obtain ⟨hstep, hpres⟩ := dedupStepE_eq mk hpm init f h
      rw [List.foldl_cons, List.foldl_cons, hstep]
      exact ih (dedupStep mk init f) hpres

theorem longFunctionAnyE_eq (ls : Int) :
    ∀ {issues : List IssueRec}, LinesParsable issues →
      longFunctionAnyE ls issues =
        some (issues.any (fun i =>
          (locLine i.location - ls).natAbs ≤ 5 ∧
          containsSub ("long".data) (pyLower i.title).data)) := by
  intro issues
  induction issues with
  | nil =>
      intro h
      rfl
  | cons i rest ih =>
      intro h
      obtain ⟨l, hl⟩ := Option.isSome_iff_exists.mp (h i (by simp))
      have hrest : LinesParsable rest := fun j hj => h j (by simp [hj])
      show (match pyIntOfString (lastColonSeg i.location) with
        | none => none
        | some l =>
            if (l - ls).natAbs ≤ 5 ∧
                containsSub ("long".data) (pyLower i.title).data then some true
            else longFunctionAnyE ls rest) = _
      rw [hl]
      dsimp only
      have hloc : locLine i.location = l := by
        unfold locLine
        rw [hl]
        rfl
      by_cases hc : (l - ls).natAbs ≤ 5 ∧
          containsSub ("long".data) (pyLower i.title).data = true
      · rw [if_pos hc]
        have hfi : decide ((locLine i.location - ls).natAbs ≤ 5 ∧
            containsSub ("long".data) (pyLower i.title).data = true) = true := by
          rw [hloc]
          exact decide_eq_true hc
        simp only [List.any_cons, hfi, Bool.true_or, Bool.false_or]
      · rw [if_neg hc, ih hrest]
        have hfi : decide ((locLine i.location - ls).natAbs ≤ 5 ∧
            containsSub ("long".data) (pyLower i.title).data = true) = false := by
          rw [hloc]
          exact decide_eq_false hc
        simp only [List.any_cons, hfi, Bool.true_or, Bool.false_or]

theorem largeClassAnyE_eq (ls : Int) :
    ∀ {issues : List IssueRec}, LinesParsable issues →
      largeClassAnyE ls issues =
        some (issues.any (fun i =>
          (locLine i.location - ls).natAbs ≤ 5 ∧
          (containsSub ("god".data) (pyLower i.title).data ∨
           containsSub ("large".data) (pyLower i.title).data))) := by
  intro issues
  induction issues with
  | nil =>
      intro h
      rfl
  | cons i rest ih =>
      intro h
      obtain ⟨l, hl⟩ := Option.isSome_iff_exists.mp (h i (by simp))
      have hrest : LinesParsable rest := fun j hj => h j (by simp [hj])
      show (match pyIntOfString (lastColonSeg i.location) with
        | none => none
        | some l =>
            if (l - ls).natAbs ≤ 5 ∧
                (containsSub ("god".data) (pyLower i.title).data ∨
                 containsSub ("large".data) (pyLower i.title).data) then
              some true
            else largeClassAnyE ls rest) = _
      rw [hl]
      dsimp only
      have hloc : locLine i.location = l := by
        unfold locLine
        rw [hl]
        rfl
      by_cases hc : (l - ls).natAbs ≤ 5 ∧
          (containsSub ("god".data) (pyLower i.title).data = true ∨
           containsSub ("large".data) (pyLower i.title).data = true)
      · rw [if_pos hc]
        have hfi : decide ((locLine i.location - ls).natAbs ≤ 5 ∧
            (containsSub ("god".data) (pyLower i.title).data = true ∨
             containsSub ("large".data) (pyLower i.title).data = true)) = true := by
          rw [hloc]
          exact decide_eq_true hc
        simp only [List.any_cons, hfi, Bool.true_or, Bool.false_or]
      · rw [if_neg hc, ih hrest]
        have hfi : decide ((locLine i.location - ls).natAbs ≤ 5 ∧
            (containsSub ("god".data) (pyLower i.title).data = true ∨
             containsSub ("large".data) (pyLower i.title).data = true)) = false := by
          rw [hloc]
          exact decide_eq_false hc
        simp only [List.any_cons, hfi, Bool.true_or, Bool.false_or]

theorem longFunctionStepE_eq (cf : String) (acc : List IssueRec)
    (fn : FuncInfo) (h : LinesParsable acc) :
    longFunctionStepE cf (some acc) fn = some (longFunctionStep cf acc fn) ∧
    LinesParsable (longFunctionStep cf acc fn) := by
  unfold longFunctionStepE longFunctionStep
  dsimp only
  by_cases he : fn.error = true
  · rw [if_pos he, if_pos he]
    exact ⟨rfl, h⟩
  · rw [if_neg he, if_neg he]
    by_cases hl : fn.line_end - fn.line_start > 50
    · rw [if_pos hl, if_pos hl, longFunctionAnyE_eq fn.line_start h]
      by_cases hd : acc.any (fun i =>
          (locLine i.location - fn.line_start).natAbs ≤ 5 ∧
          containsSub ("long".data) (pyLower i.title).data) = true
      · rw [hd, if_neg (by simp)]
        exact ⟨rfl, h⟩
      · have hd' := Bool.eq_false_iff.mpr hd
        rw [hd', if_pos (by simp)]
        exact ⟨rfl, h.append (patternLoc_parsable cf fn.line_start)⟩
    · rw [if_neg hl, if_neg hl]
      exact ⟨rfl, h⟩

theorem largeClassStepE_eq (cf : String) (acc : List IssueRec)
    (cl : ClassInfo) (h : LinesParsable acc) :
    largeClassStepE cf (some acc) cl = some (largeClassStep cf acc cl) ∧
    LinesParsable (largeClassStep cf acc cl) := by
  unfold largeClassStepE largeClassStep
  dsimp only
  by_cases he : cl.error = true
  · rw [if_pos he, if_pos he]
    exact ⟨rfl, h⟩
  · rw [if_neg he, if_neg he]
    by_cases hl : cl.methods.length > 10
    · rw [if_pos hl, if_pos hl, largeClassAnyE_eq cl.line_start h]
      by_cases hd : acc.any (fun i =>
          (locLine i.location - cl.line_start).natAbs ≤ 5 ∧
          (containsSub ("god".data) (pyLower i.title).data ∨
           containsSub ("large".data) (pyLower i.title).data)) = true
      · rw [hd, if_neg (by simp)]
        exact ⟨rfl, h⟩
      · have hd' := Bool.eq_false_iff.mpr hd
        rw [hd', if_pos (by simp)]
        exact ⟨rfl, h.append (patternLoc_parsable cf cl.line_start)⟩
    · rw [if_neg hl, if_neg hl]
      exact ⟨rfl, h⟩

theorem longFoldE_eq (cf : String) :
    ∀ (funcs : List FuncInfo) (acc : List IssueRec), LinesParsable acc →
      funcs.foldl (longFunctionStepE cf) (some acc) =
        some (funcs.foldl (longFunctionStep cf) acc) ∧
      LinesParsable (funcs.foldl (longFunctionStep cf) acc) := by
  intro funcs
  induction funcs with
  | nil =>
      intro acc h
      exact ⟨rfl, h⟩
  | cons fn fns ih =>
      intro acc h
      obtain ⟨hstep, hpres⟩ := longFunctionStepE_eq cf acc fn h
      rw [List.foldl_cons, List.foldl_cons, hstep]
      exact ih (longFunctionStep cf acc fn) hpres

theorem largeFoldE_eq (cf : String) :
    ∀ (clss : List ClassInfo) (acc : List IssueRec), LinesParsable acc →
      clss.foldl (largeClassStepE cf) (some acc) =
        some (clss.foldl (largeClassStep cf) acc) ∧
      LinesParsable (clss.foldl (largeClassStep cf) acc) := by
  intro clss
  induction clss with
  | nil =>
      intro acc h
      exact ⟨rfl, h⟩
  | cons cl cls ih =>
      intro acc h
      obtain ⟨hstep, hpres⟩ := largeClassStepE_eq cf acc cl h
      rw [List.foldl_cons, List.foldl_cons, hstep]
      exact ih (largeClassStep cf acc cl) hpres

/-- With `int()`-parsable collaborator locations, the security node raises
no error and agrees with the error-free model. -/
theorem security_nodeE_eq (o : Oracles) (s : AnalysisState)
    (hlm : LinesParsable (llmIssuesOf o "security" s.current_file)) :
    security_nodeE o s = some (security_node o s) := by
  unfold security_nodeE security_node
  split
  · rfl
  · obtain ⟨hfold, -⟩ := dedup_foldE_eq (securityPatternIssue s.current_file)
      (fun f => patternLoc_parsable s.current_file f.line_number)
      (o.findPat "security" s.current_file_content) _ hlm
    rw [hfold]

theorem performance_nodeE_eq (o : Oracles) (s : AnalysisState)
    (hlm : LinesParsable (llmIssuesOf o "performance" s.current_file)) :
    performance_nodeE o s = some (performance_node o s) := by
  unfold performance_nodeE performance_node
  split
  · rfl
  · obtain ⟨hfold, -⟩ := dedup_foldE_eq (performancePatternIssue s.current_file)
      (fun f => patternLoc_parsable s.current_file f.line_number)
      (o.findPat "performance" s.current_file_content) _ hlm
    rw [hfold]

theorem architecture_nodeE_eq (o : Oracles) (s : AnalysisState)
    (hlm : LinesParsable (llmIssuesOf o "architecture" s.current_file)) :
    architecture_nodeE o s = some (architecture_node o s) := by
  unfold architecture_nodeE architecture_node
  split
  · rfl
  · obtain ⟨hfold1, hp1⟩ := dedup_foldE_eq
      (architecturePatternIssue s.current_file)
      (fun f => patternLoc_parsable s.current_file f.line_number)
      (o.findPat "architecture" s.current_file_content) _ hlm
    obtain ⟨hfold2, hp2⟩ := longFoldE_eq s.current_file
      (o.functions s.current_file_content) _ hp1
    obtain ⟨hfold3, -⟩ := largeFoldE_eq s.current_file
      (o.classes s.current_file_content) _ hp2
    rw [hfold1]
    dsimp only
    rw [hfold2]
    dsimp only
    rw [hfold3]

/-! ### Frame facts for the specialist nodes and symbolic run lemmas -/

theorem security_node_frame (o : Oracles) (s : AnalysisState) :
    (security_node o s).target_path = s.target_path ∧
    (security_node o s).files_to_analyze = s.files_to_analyze ∧
    (security_node o s).current_file = s.current_file ∧
    (security_node o s).current_file_content = s.current_file_content ∧
    (security_node o s).processed_files = s.processed_files ∧
    (security_node o s).scan_status = s.scan_status ∧
    (security_node o s).summary = s.summary ∧
    (security_node o s).error = s.error := by
  unfold security_node
  split <;> exact ⟨rfl, rfl, rfl, rfl, rfl, rfl, rfl, rfl⟩

theorem performance_node_frame (o : Oracles) (s : AnalysisState) :
    (performance_node o s).target_path = s.target_path ∧
    (performance_node o s).files_to_analyze = s.files_to_analyze ∧
    (performance_node o s).current_file = s.current_file ∧
    (performance_node o s).current_file_content = s.current_file_content ∧
    (performance_node o s).processed_files = s.processed_files ∧
    (performance_node o s).scan_status = s.scan_status ∧
    (performance_node o s).summary = s.summary ∧
    (performance_node o s).error = s.error := by
  unfold performance_node
  split <;> exact ⟨rfl, rfl, rfl, rfl, rfl, rfl, rfl, rfl⟩

theorem architecture_node_frame (o : Oracles) (s : AnalysisState) :
    (architecture_node o s).target_path = s.target_path ∧
    (architecture_node o s).files_to_analyze = s.files_to_analyze ∧
    (architecture_node o s).current_file = s.current_file ∧
    (architecture_node o s).current_file_content = s.current_file_content ∧
    (architecture_node o s).processed_files = s.processed_files ∧
    (architecture_node o s).scan_status = s.scan_status ∧
    (architecture_node o s).summary = s.summary ∧
    (architecture_node o s).error = s.error := by
  unfold architecture_node
  split <;> exact ⟨rfl, rfl, rfl, rfl, rfl, rfl, rfl, rfl⟩

/-- First manager step of a two-file run whose first file is unreadable: the
file is skipped and recorded as processed without any analysis. -/
theorem manager_step1 (o : Oracles) (tp f₁ f₂ : String)
    (h1 : pyStartsWith (o.read f₁) "[ERROR]" = true) :
    manager_node o (create_initial_state tp [f₁, f₂]) =
      ⟨tp, [f₂], "", "", [f₁], [], [], ScanStatus.scanning, "", ""⟩ := by
  unfold manager_node create_initial_state
  simp [h1]

/-- Second manager step: the readable file is selected and its content read. -/
theorem manager_step2 (o : Oracles) (tp f₁ f₂ : String) (hne : f₁ ≠ f₂)
    (h2 : pyStartsWith (o.read f₂) "[ERROR]" = false) :
    manager_node o ⟨tp, [f₂], "", "", [f₁], [], [], ScanStatus.scanning, "", ""⟩ =
      ⟨tp, [], f₂, o.read f₂, [f₁], [], [], ScanStatus.scanning, "", ""⟩ := by
  unfold manager_node
  simp [h2, Ne.symm hne]

/-- The completion step: a fully analyzed current file is recorded and the
run moves to compilation once no files remain. -/
theorem manager_node_finish (o : Oracles) (s : AnalysisState)
    (hst : s.scan_status = ScanStatus.scanning)
    (hfiles : s.files_to_analyze = [])
    (hcf : s.current_file ≠ "")
    (hlen : s.current_file_analyzed_by.length ≥ 3)
    (hnp : s.current_file ∉ s.processed_files) :
    manager_node o s =
      { s with
          files_to_analyze := []
          current_file := ""
          current_file_content := ""
          processed_files := s.processed_files ++ [s.current_file]
          current_file_analyzed_by := []
          scan_status := ScanStatus.compiling } := by
  unfold manager_node
  rw [hst, hfiles]
  simp [hcf, hlen, hnp]

theorem route_after_manager_S1 (tp f₁ f₂ : String) :
    route_after_manager
      ⟨tp, [f₂], "", "", [f₁], [], [], ScanStatus.scanning, "", ""⟩ =
      Node.manager := by
  simp [route_after_manager]

theorem route_after_manager_S2 (tp f₁ f₂ c : String) (hf2 : f₂ ≠ "")
    (hc : c ≠ "") :
    route_after_manager
      ⟨tp, [], f₂, c, [f₁], [], [], ScanStatus.scanning, "", ""⟩ =
      Node.security := by
  simp [route_after_manager, hf2, hc]

/-- A two-file run whose first file is unreadable and whose second file has
non-empty readable content, under the exception-aware semantics: when every
collaborator-sourced issue for the readable file carries an `int()`-parsable
line segment, no dedup comparison raises, seven graph steps reach the
terminal state, both files are recorded as processed, and every logged
issue is located in the readable file. -/
theorem runGraphE_skip_unreadable (o : Oracles) (tp f₁ f₂ : String)
    (hne : f₁ ≠ f₂) (hf2 : f₂ ≠ "")
    (h1 : pyStartsWith (o.read f₁) "[ERROR]" = true)
    (h2 : pyStartsWith (o.read f₂) "[ERROR]" = false)
    (h3 : o.read f₂ ≠ "")
    (hlm : ∀ cat ∈ (["security", "performance", "architecture"] : List String),
      LinesParsable (llmIssuesOf o cat f₂)) :
    ∃ s, runGraphE o tp [f₁, f₂] 7 = some (s, Node.stop) ∧
      s.scan_status = ScanStatus.done ∧ s.processed_files = [f₁, f₂] ∧
      ∀ i ∈ s.issues, ∃ r, i.location = f₂ ++ ":" ++ r := by
  have e1 := manager_step1 o tp f₁ f₂ h1
  have e2 := manager_step2 o tp f₁ f₂ hne h2
  have hlmS : LinesParsable (llmIssuesOf o "security" f₂) :=
    hlm "security" (by simp)
  have hlmP : LinesParsable (llmIssuesOf o "performance" f₂) :=
    hlm "performance" (by simp)
  have hlmA : LinesParsable (llmIssuesOf o "architecture" f₂) :=
    hlm "architecture" (by simp)
  set S1 : AnalysisState :=
    ⟨tp, [f₂], "", "", [f₁], [], [], ScanStatus.scanning, "", ""⟩ with hS1
  set S2 : AnalysisState :=
    ⟨tp, [], f₂, o.read f₂, [f₁], [], [], ScanStatus.scanning, "", ""⟩ with hS2
  set s3 := security_node o S2 with hs3
  set s4 := performance_node o s3 with hs4
  set s5 := architecture_node o s4 with hs5
  obtain ⟨ftp3, ffl3, fcf3, fcc3, fpr3, fst3, fsm3, fer3⟩ :=
    security_node_frame o S2
  obtain ⟨ftp4, ffl4, fcf4, fcc4, fpr4, fst4, fsm4, fer4⟩ :=
    performance_node_frame o s3
  obtain ⟨ftp5, ffl5, fcf5, fcc5, fpr5, fst5, fsm5, fer5⟩ :=
    architecture_node_frame o s4
  have a3 := security_node_analyzed o S2
  have a4 := performance_node_analyzed o s3
  have a5 := architecture_node_analyzed o s4
  have hcf5 : s5.current_file = f₂ := by rw [fcf5, fcf4, fcf3]
  have hst5 : s5.scan_status = ScanStatus.scanning := by rw [fst5, fst4, fst3]
  have hfl5 : s5.files_to_analyze = [] := by rw [ffl5, ffl4, ffl3]
  have hpr5 : s5.processed_files = [f₁] := by rw [fpr5, fpr4, fpr3]
  have her5 : s5.error = "" := by rw [fer5, fer4, fer3]
  have her4 : s4.error = "" := by rw [fer4, fer3]
  have her3 : s3.error = "" := by rw [fer3]
  have hlen5 : s5.current_file_analyzed_by.length ≥ 3 := by
    rw [a5, a4, a3]
    simp
  have e6 : manager_node o s5 =
      { s5 with
          files_to_analyze := []
          current_file := ""
          current_file_content := ""
          processed_files := s5.processed_files ++ [s5.current_file]
          current_file_analyzed_by := []
          scan_status := ScanStatus.compiling } := by
    refine manager_node_finish o s5 hst5 hfl5 ?_ hlen5 ?_
    · rw [hcf5]
      exact hf2
    · rw [hcf5, hpr5]
      simp [Ne.symm hne]
  set S6 : AnalysisState :=
    { s5 with
        files_to_analyze := []
        current_file := ""
        current_file_content := ""
        processed_files := s5.processed_files ++ [s5.current_file]
        current_file_analyzed_by := []
        scan_status := ScanStatus.compiling } with hS6
  have e6r : route_after_manager S6 = Node.compile := by
    unfold route_after_manager
    rw [if_neg (by simp [hS6, her5]), if_pos rfl]
  have g1 : graphStepE o (create_initial_state tp [f₁, f₂], Node.manager) =
      some (S1, Node.manager) := by
    show some (manager_node o (create_initial_state tp [f₁, f₂]),
      route_after_manager (manager_node o (create_initial_state tp [f₁, f₂]))) = _
    rw [e1]
    rw [route_after_manager_S1]
  have g2 : graphStepE o (S1, Node.manager) = some (S2, Node.security) := by
    show some (manager_node o S1, route_after_manager (manager_node o S1)) = _
    rw [e2]
    rw [route_after_manager_S2 tp f₁ f₂ (o.read f₂) hf2 h3]
  have g3 : graphStepE o (S2, Node.security) = some (s3, Node.performance) := by
    have hsec : security_nodeE o S2 = some (security_node o S2) :=
      security_nodeE_eq o S2 hlmS
    show (match security_nodeE o S2 with
      | none => none
      | some s2 => some (s2, route_after_security s2)) = _
    rw [hsec]
    show some (security_node o S2,
      route_after_security (security_node o S2)) = _
    rw [← hs3, route_after_security_no_error her3]
  have g4 : graphStepE o (s3, Node.performance) =
      some (s4, Node.architecture) := by
    have hperf : performance_nodeE o s3 = some (performance_node o s3) :=
      performance_nodeE_eq o s3 (by rw [show s3.current_file = f₂ from fcf3]; exact hlmP)
    show (match performance_nodeE o s3 with
      | none => none
      | some s2 => some (s2, route_after_performance s2)) = _
    rw [hperf]
    show some (performance_node o s3,
      route_after_performance (performance_node o s3)) = _
    rw [← hs4, route_after_performance_no_error her4]
  have g5 : graphStepE o (s4, Node.architecture) = some (s5, Node.manager) := by
    have harch : architecture_nodeE o s4 = some (architecture_node o s4) :=
      architecture_nodeE_eq o s4
        (by rw [show s4.current_file = f₂ from by rw [fcf4, fcf3]]; exact hlmA)
    show (match architecture_nodeE o s4 with
      | none => none
      | some s2 => some (s2, route_after_architecture s2)) = _
    rw [harch]
    show some (architecture_node o s4,
      route_after_architecture (architecture_node o s4)) = _
    rw [← hs5, route_after_architecture_no_error her5]
  have g6 : graphStepE o (s5, Node.manager) = some (S6, Node.compile) := by
    show some (manager_node o s5, route_after_manager (manager_node o s5)) = _
    rw [e6, e6r]
  have g7 : graphStepE o (S6, Node.compile) =
      some ({ S6 with scan_status := ScanStatus.done, summary := "summary" },
        Node.stop) := by
    show some (compiler_node S6, route_after_compiler (compiler_node S6)) = _
    rfl
  refine ⟨{ S6 with scan_status := ScanStatus.done, summary := "summary" },
    ?_, rfl, ?_, ?_⟩
  · show (fun p => Option.bind p (graphStepE o))^[7]
      (some (create_initial_state tp [f₁, f₂], Node.manager)) = _
    rw [show (fun p => Option.bind p (graphStepE o))^[7]
        (some (create_initial_state tp [f₁, f₂], Node.manager)) =
      Option.bind (Option.bind (Option.bind (Option.bind (Option.bind
        (Option.bind (Option.bind
          (some (create_initial_state tp [f₁, f₂], Node.manager))
          (graphStepE o)) (graphStepE o)) (graphStepE o)) (graphStepE o))
        (graphStepE o)) (graphStepE o)) (graphStepE o) from rfl]
    rw [Option.some_bind, g1, Option.some_bind, g2, Option.some_bind, g3,
      Option.some_bind, g4, Option.some_bind, g5, Option.some_bind, g6,
      Option.some_bind, g7]
  · show S6.processed_files = [f₁, f₂]
    rw [hS6]
    show s5.processed_files ++ [s5.current_file] = [f₁, f₂]
    rw [hpr5, hcf5]
    rfl
  · show ∀ i ∈ S6.issues, ∃ r, i.location = f₂ ++ ":" ++ r
    have hiss : S6.issues = s5.issues := rfl
    rw [hiss]
    intro i hi
    rcases architecture_node_issue_loc o s4 i hi with h | ⟨r, hr⟩
    · rcases performance_node_issue_loc o s3 i h with h' | ⟨r, hr⟩
      · rcases security_node_issue_loc o S2 i h' with h'' | ⟨r, hr⟩
        · cases h''
        · exact ⟨r, hr⟩
      · rw [fcf3] at hr
        exact ⟨r, hr⟩
    · rw [fcf4, fcf3] at hr
      exact ⟨r, hr⟩

/-! ## Concrete instances used by the behavioural theorems below -/

/-- A fixed issue used to instantiate the identity and ledger theorems. -/
def sampleIssue : Issue :=
  { location := "app.py:10"
    type := IssueType.security
    risk_level := RiskLevel.high
    title := "T"
    description := "d"
    code_snippet := "c"
    solution := "s"
    related_issues := none
    author := none
    created_at := "t" }

/-- A fixed critical-risk record for the scoring theorems. -/
def criticalIssue : IssueRec :=
  { location := "a.py:1"
    type := "security"
    risk_level := "critical"
    title := "t"
    description := "d"
    code_snippet := "c"
    solution := "s"
    author := "x" }

/-- Collaborators for a run over `bad.py` (read fails) and `empty.py`
(readable, but with empty content). -/
def oC5 : Oracles :=
  { read := fun f => if f = "bad.py" then "[ERROR] cannot read" else ""
    discovered := []
    llm := fun _ _ => none
    findPat := fun _ _ => []
    functions := fun _ => []
    classes := fun _ => []
    complexity := fun _ => 0
    metricsFunctions := fun _ => 0
    metricsClasses := fun _ => 0 }

/-- Collaborators for a run over `bad.py` (read fails) and `ok.py`
(readable, non-empty content). -/
def oC5w : Oracles :=
  { read := fun f => if f = "bad.py" then "[ERROR] cannot read" else "print(1)"
    discovered := []
    llm := fun _ _ => none
    findPat := fun _ _ => []
    functions := fun _ => []
    classes := fun _ => []
    complexity := fun _ => 0
    metricsFunctions := fun _ => 0
    metricsClasses := fun _ => 0 }

/-- A mid-scan state: one current file with content, no analyzer run yet. -/
def s4state : AnalysisState :=
  ⟨"p", ["a.py"], "a.py", "x", [], [], [], ScanStatus.scanning, "", ""⟩

/-- A collaborator response holding one issue at line 10. -/
def resp6 : String :=
  "[\x7b\"title\": \"SQL Injection risk\", \"line_number\": 10, \"risk_level\": \"high\", \"description\": \"d\", \"solution\": \"s\", \"code_snippet\": \"q\"\x7d]"

/-- Collaborators for the dedup scenario: the generation service reports one
security issue at line 10, the rule engine one match at line 11. -/
def scen6O : Oracles :=
  { read := fun _ => "code"
    discovered := []
    llm := fun cat _ => if cat = "security" then some resp6 else none
    findPat := fun cat _ =>
      if cat = "security" then [⟨"security", "sql_injection", 11, "q", "+"⟩]
      else []
    functions := fun _ => []
    classes := fun _ => []
    complexity := fun _ => 0
    metricsFunctions := fun _ => 0
    metricsClasses := fun _ => 0 }

/-- The dedup scenario's state: `app.py` is under analysis. -/
def scen6S : AnalysisState :=
  ⟨"p", [], "app.py", "code", [], [], [], ScanStatus.scanning, "", ""⟩

/-- A collaborator response whose first issue has the boolean `line_number`
`true` (an accepted location `app.py:True`) and whose second is at line
10. -/
def resp6b : String :=
  "[\x7b\"title\": \"Bool line\", \"line_number\": true\x7d, \x7b\"title\": \"SQL Injection risk\", \"line_number\": 10\x7d]"

/-- The crash scenario's collaborators: the generated issues land at
`app.py:True` and `app.py:10`, and the rule engine matches line 11. -/
def scen6bO : Oracles :=
  { read := fun _ => "code"
    discovered := []
    llm := fun cat _ => if cat = "security" then some resp6b else none
    findPat := fun cat _ =>
      if cat = "security" then [⟨"security", "sql_injection", 11, "q", "+"⟩]
      else []
    functions := fun _ => []
    classes := fun _ => []
    complexity := fun _ => 0
    metricsFunctions := fun _ => 0
    metricsClasses := fun _ => 0 }

/-- The crash scenario's state: `app.py` under analysis. -/
def scen6bS : AnalysisState :=
  ⟨"p", [], "app.py", "code", [], [], [], ScanStatus.scanning, "", ""⟩

/-- A response whose quotes are the smart variants `U+201C`/`U+201D`. -/
def curlyResp : String := "[\x7b“title”: “Curly”\x7d]"

/-- The same response with plain double quotes. -/
def straightResp : String := "[\x7b\"title\": \"Curly\"\x7d]"

/-- A response whose `line_number` is the JSON boolean `true`. -/
def boolLineResp : String := "[\x7b\"title\": \"T\", \"line_number\": true\x7d]"

/-- A well-formed one-issue response. -/
def goodResp : String :=
  "[\x7b\"title\": \"T\", \"line_number\": 2, \"risk_level\": \"high\"\x7d]"

/-- The record `parse_llm_issues` builds from `goodResp`. -/
def c10i : IssueRec :=
  ⟨"f.py:2", "security", "high", "T", "No description provided", "",
    "Review and fix the issue", "SecurityAgent (LLM)"⟩

/-- Pairwise-distinct location strings, one per natural number. -/
def locN (n : Nat) : String := String.mk (List.replicate n 'a')

theorem locN_injective : Function.Injective locN := by
  intro m n h
  have hd : List.replicate m 'a' = List.replicate n 'a' :=
    congrArg String.data h
  simpa using congrArg List.length hd

/-! ## The claims -/

/-- C1 counterpart: the second half of the identity claim fails.  The id
space has `16 ^ 12 = 2 ^ 48` elements while locations are unbounded, so some
two distinct locations (with title and snippet fixed) share an id. -/
theorem C1_counterexample :
    ¬ ∀ l₁ l₂ t c : String, l₁ ≠ l₂ → issueIdOf l₁ t c ≠ issueIdOf l₂ t c := by
  intro hinj
  have hbound : ∀ n : Nat,
      sha256Nat (utf8Bytes (hashContent (locN n) "" "")) / 2 ^ 208 < 2 ^ 48 := by
    intro n
    rw [Nat.div_lt_iff_lt_mul (by positivity)]
    calc sha256Nat (utf8Bytes (hashContent (locN n) "" ""))
        < 2 ^ 256 := sha256Nat_lt _
      _ = 2 ^ 48 * 2 ^ 208 := by norm_num
  obtain ⟨m, n, hmn, hfeq⟩ := Finite.exists_ne_map_eq_of_infinite
    (fun k : Nat =>
      (⟨sha256Nat (utf8Bytes (hashContent (locN k) "" "")) / 2 ^ 208,
        hbound k⟩ : Fin (2 ^ 48)))
  have htop : sha256Nat (utf8Bytes (hashContent (locN m) "" "")) / 2 ^ 208 =
      sha256Nat (utf8Bytes (hashContent (locN n) "" "")) / 2 ^ 208 :=
    congrArg Fin.val hfeq
  exact hinj (locN m) (locN n) "" "" (fun he => hmn (locN_injective he))
    (issueIdOf_eq_of_top48 htop)

/-- C1 (amended): `Issue.id` is a function of `location`, `title` and
`code_snippet` alone — two issues agreeing on those three fields have equal
ids — and the id is the first 12 hex characters of the SHA-256 digest of
`location|title|code_snippet`.  The claim's converse (changing one field
always changes the id) is refuted separately: a 48-bit truncation cannot be
injective on unbounded fields. -/
theorem C1_issue_id (i j : Issue) (hl : i.location = j.location)
    (ht : i.title = j.title) (hc : i.code_snippet = j.code_snippet) :
    i.id = j.id ∧
    i.id = String.mk ((hexDigest (sha256Nat (utf8Bytes
      (i.location ++ "|" ++ i.title ++ "|" ++ i.code_snippet)))).data.take 12) := by
  constructor
  · show issueIdOf i.location i.title i.code_snippet =
      issueIdOf j.location j.title j.code_snippet
    rw [hl, ht, hc]
  · rfl

theorem C1_issue_id_witness :
    sampleIssue.location = sampleIssue.location ∧
    sampleIssue.title = sampleIssue.title ∧
    sampleIssue.code_snippet = sampleIssue.code_snippet ∧
    (sampleIssue.id = sampleIssue.id ∧
      sampleIssue.id = String.mk ((hexDigest (sha256Nat (utf8Bytes
        (sampleIssue.location ++ "|" ++ sampleIssue.title ++ "|" ++
          sampleIssue.code_snippet)))).data.take 12)) :=
  ⟨rfl, rfl, rfl, C1_issue_id sampleIssue sampleIssue rfl rfl rfl⟩

/-- C2: the ledger round-trip.  After `save(i)`, `get_by_id(i.id)` returns
`i`'s serialized dictionary; a second identical `save` is a no-op on the
state (so `count()` is unchanged) and returns the same document path; a
ledger that held nothing but `i` counts one entry; and the written path is
`{type}/{risk_level}/{id}`. -/
theorem C2_ledger_roundtrip (s : LedgerState) (i : Issue) :
    ledgerGetById (ledgerSave s i).1 i.id = some i.toDict ∧
    ledgerSave (ledgerSave s i).1 i = ledgerSave s i ∧
    ledgerCount (ledgerSave (ledgerSave s i).1 i).1 =
      ledgerCount (ledgerSave s i).1 ∧
    ledgerCount (ledgerSave (ledgerSave emptyLedger i).1 i).1 = 1 ∧
    (ledgerSave (ledgerSave s i).1 i).2 = (ledgerSave s i).2 ∧
    (ledgerSave s i).2 = ⟨i.type.value, i.risk_level.value, i.id⟩ := by
  refine ⟨ledgerSave_getById s i, ledgerSave_idem s i, ?_, ?_, ?_,
    (ledgerSave_spec s i).1⟩
  · rw [ledgerSave_idem]
  · rw [ledgerSave_idem]
    rfl
  · rw [ledgerSave_idem]

theorem consistent_empty : Consistent emptyLedger :=
  ⟨fun e he => absurd he (List.not_mem_nil e),
   fun e he => absurd he (List.not_mem_nil e),
   fun p hp => absurd hp (List.not_mem_nil p),
   List.Pairwise.nil⟩

/-- C3: on a consistent ledger, `save` removes a same-id entry recorded under
a different type/risk pair (its document and its index entry both disappear),
and `save`, `delete` and `clear` each preserve the consistency invariant:
every entry's recorded pair matches its document's directory, every document
has exactly one index entry, and no id is indexed twice. -/
theorem C3_ledger_consistency (s : LedgerState) (i : Issue) (old : IssueDict)
    (issue_id : String) (hc : Consistent s) :
    (old ∈ s.index → old.id = i.id →
      (old.type ≠ i.type.value ∨ old.risk_level ≠ i.risk_level.value) →
      entryPath old ∉ (ledgerSave s i).1.docs ∧
        old ∉ (ledgerSave s i).1.index) ∧
    Consistent (ledgerSave s i).1 ∧
    Consistent (ledgerDelete s issue_id).1 ∧
    Consistent (ledgerClear s).1 :=
  ⟨fun hm hid hdiff => ledgerSave_removes_old s i old hc hm hid hdiff,
   ledgerSave_consistent s i hc, ledgerDelete_consistent s issue_id hc,
   (ledgerClear_consistent s hc).2.2.2⟩

theorem C3_ledger_consistency_witness :
    Consistent emptyLedger ∧
    ((sampleIssue.toDict ∈ emptyLedger.index →
        sampleIssue.toDict.id = sampleIssue.id →
        (sampleIssue.toDict.type ≠ sampleIssue.type.value ∨
          sampleIssue.toDict.risk_level ≠ sampleIssue.risk_level.value) →
        entryPath sampleIssue.toDict ∉
          (ledgerSave emptyLedger sampleIssue).1.docs ∧
          sampleIssue.toDict ∉ (ledgerSave emptyLedger sampleIssue).1.index) ∧
      Consistent (ledgerSave emptyLedger sampleIssue).1 ∧
      Consistent (ledgerDelete emptyLedger "x").1 ∧
      Consistent (ledgerClear emptyLedger).1) :=
  ⟨consistent_empty,
    C3_ledger_consistency emptyLedger sampleIssue sampleIssue.toDict "x"
      consistent_empty⟩

/-- C4 counterpart: after the security agent completes (no error recorded),
the router hands control straight to the performance agent — not back to the
orchestrator. -/
theorem C4_counterexample :
    route_after_security (security_node oC5 s4state) = Node.performance ∧
    route_after_security (security_node oC5 s4state) ≠ Node.manager := by
  decide

/-- C4 (amended): with no error, outside compilation and with a current file
and content present, the orchestrator routes to the first analyzer category
not in `current_file_analyzed_by`, in the order security → performance →
architecture; each analyzer appends its name to `current_file_analyzed_by`
and its findings to the issue log.  Control, however, flows directly along
the chain security → performance → architecture and returns to the
orchestrator only after the architecture agent. -/
theorem C4_analyzer_chain (o : Oracles) (s : AnalysisState)
    (he : s.error = "") (hc : s.scan_status ≠ ScanStatus.compiling)
    (hf : s.current_file ≠ "") (hcc : s.current_file_content ≠ "") :
    route_after_manager s =
      (match firstPending s.current_file_analyzed_by with
       | some c => nodeOfCategory c
       | none => Node.manager) ∧
    (security_node o s).current_file_analyzed_by =
      s.current_file_analyzed_by ++ ["security"] ∧
    (performance_node o s).current_file_analyzed_by =
      s.current_file_analyzed_by ++ ["performance"] ∧
    (architecture_node o s).current_file_analyzed_by =
      s.current_file_analyzed_by ++ ["architecture"] ∧
    (∃ new, (security_node o s).issues = s.issues ++ new) ∧
    (∃ new, (performance_node o s).issues = s.issues ++ new) ∧
    (∃ new, (architecture_node o s).issues = s.issues ++ new) ∧
    route_after_security (security_node o s) = Node.performance ∧
    route_after_performance (performance_node o s) = Node.architecture ∧
    route_after_architecture (architecture_node o s) = Node.manager := by
  refine ⟨route_after_manager_order he hc hf hcc,
    security_node_analyzed o s, performance_node_analyzed o s,
    architecture_node_analyzed o s,
    security_node_issues_append o s, performance_node_issues_append o s,
    architecture_node_issues_append o s, ?_, ?_, ?_⟩
  · exact route_after_security_no_error
      (by rw [(security_node_frame o s).2.2.2.2.2.2.2, he])
  · exact route_after_performance_no_error
      (by rw [(performance_node_frame o s).2.2.2.2.2.2.2, he])
  · exact route_after_architecture_no_error
      (by rw [(architecture_node_frame o s).2.2.2.2.2.2.2, he])

theorem C4_analyzer_chain_witness :
    s4state.error = "" ∧ s4state.scan_status ≠ ScanStatus.compiling ∧
    s4state.current_file ≠ "" ∧ s4state.current_file_content ≠ "" ∧
    (route_after_manager s4state =
      (match firstPending s4state.current_file_analyzed_by with
       | some c => nodeOfCategory c
       | none => Node.manager) ∧
    (security_node oC5 s4state).current_file_analyzed_by =
      s4state.current_file_analyzed_by ++ ["security"] ∧
    (performance_node oC5 s4state).current_file_analyzed_by =
      s4state.current_file_analyzed_by ++ ["performance"] ∧
    (architecture_node oC5 s4state).current_file_analyzed_by =
      s4state.current_file_analyzed_by ++ ["architecture"] ∧
    (∃ new, (security_node oC5 s4state).issues = s4state.issues ++ new) ∧
    (∃ new, (performance_node oC5 s4state).issues = s4state.issues ++ new) ∧
    (∃ new, (architecture_node oC5 s4state).issues = s4state.issues ++ new) ∧
    route_after_security (security_node oC5 s4state) = Node.performance ∧
    route_after_performance (performance_node oC5 s4state) =
      Node.architecture ∧
    route_after_architecture (architecture_node oC5 s4state) = Node.manager) :=
  ⟨rfl, by decide, by decide, by decide,
    C4_analyzer_chain oC5 s4state rfl (by decide) (by decide) (by decide)⟩

/-- C5 counterpart: with `bad.py` unreadable and `empty.py` readable but
empty, the run terminates in `done` with `processed_files = ["bad.py"]` —
length 1, not 2: a readable file whose content is empty (Python-falsy) is
dropped without ever being appended to `processed_files`. -/
theorem C5_counterexample :
    pyStartsWith (oC5.read "bad.py") "[ERROR]" = true ∧
    pyStartsWith (oC5.read "empty.py") "[ERROR]" = false ∧
    (runGraphE oC5 "p" ["bad.py", "empty.py"] 6).map
      (fun p => (p.1.scan_status, p.1.processed_files, p.2)) =
      some (ScanStatus.done, ["bad.py"], Node.stop) ∧
    (runGraphE oC5 "p" ["bad.py", "empty.py"] 6).map
      (fun p => p.1.processed_files.length) ≠ some 2 := by
  decide

/-- C5 (amended): over two distinct files of which the first is unreadable
and the second has non-empty readable content, and whose collaborator issues
for the readable file all carry `int()`-parsable line segments (otherwise the
dedup comparison raises an uncaught `ValueError` and the run never reaches a
terminal status), the run reaches `done` in seven steps, `processed_files`
lists both files (the unreadable one recorded without any analyzer run), and
every logged issue is located in the readable file.  When the readable
file's content is empty the run still terminates but records only the
unreadable file. -/
theorem C5_two_file_run (o : Oracles) (tp f₁ f₂ : String)
    (hne : f₁ ≠ f₂) (hf2 : f₂ ≠ "")
    (h1 : pyStartsWith (o.read f₁) "[ERROR]" = true)
    (h2 : pyStartsWith (o.read f₂) "[ERROR]" = false)
    (h3 : o.read f₂ ≠ "")
    (hlm : ∀ cat ∈ (["security", "performance", "architecture"] : List String),
      LinesParsable (llmIssuesOf o cat f₂)) :
    ∃ s, runGraphE o tp [f₁, f₂] 7 = some (s, Node.stop) ∧
      s.scan_status = ScanStatus.done ∧ s.processed_files = [f₁, f₂] ∧
      ∀ i ∈ s.issues, ∃ r, i.location = f₂ ++ ":" ++ r :=
  runGraphE_skip_unreadable o tp f₁ f₂ hne hf2 h1 h2 h3 hlm

theorem C5_two_file_run_witness :
    ("bad.py" : String) ≠ "ok.py" ∧ ("ok.py" : String) ≠ "" ∧
    pyStartsWith (oC5w.read "bad.py") "[ERROR]" = true ∧
    pyStartsWith (oC5w.read "ok.py") "[ERROR]" = false ∧
    oC5w.read "ok.py" ≠ "" ∧
    (∀ cat ∈ (["security", "performance", "architecture"] : List String),
      LinesParsable (llmIssuesOf oC5w cat "ok.py")) ∧
    (∃ s, runGraphE oC5w "p" ["bad.py", "ok.py"] 7 = some (s, Node.stop) ∧
      s.scan_status = ScanStatus.done ∧
      s.processed_files = ["bad.py", "ok.py"] ∧
      ∀ i ∈ s.issues, ∃ r, i.location = "ok.py" ++ ":" ++ r) :=
  ⟨by decide, by decide, by decide, by decide, by decide, by decide,
    C5_two_file_run oC5w "p" "bad.py" "ok.py" (by decide) (by decide)
      (by decide) (by decide) (by decide) (by decide)⟩

/-- C6 counterpart: the dedup guarantee fails on the error path.  With the
accepted collaborator issues at `app.py:True` and `app.py:10` (producible by
the parser from a boolean `line_number`) and a rule finding at line 11 —
within two lines of the accepted line-10 issue — the security node raises an
uncaught `ValueError` (`int("True")`, modelled `none`) instead of discarding
the duplicate. -/
theorem C6_counterexample :
    (llmIssuesOf scen6bO "security" "app.py").map (fun i => i.location) =
      ["app.py:True", "app.py:10"] ∧
    (scen6bO.findPat "security" "code").map (fun f => f.line_number) = [11] ∧
    security_nodeE scen6bO scen6bS = none := by
  decide

/-- C6 (amended): within one security-agent invocation whose accepted
collaborator issues all carry `int()`-parsable line segments, the invocation
raises no error, the collaborator's issues are accepted first, each
rule-engine finding is kept only when it lies more than two lines from every
already-accepted issue (`DedupSound`), and no finding is lost without an
accepted issue within two lines (coverage); in the concrete scenario — one
generated issue at line 10, one rule match at line 11 — the agent emits
exactly the one issue at `app.py:10`.  Without the parsability proviso the
dedup comparison raises an uncaught `ValueError` and the node aborts. -/
theorem C6_dedup (o : Oracles) (s : AnalysisState)
    (hck : s.current_file_content ≠ "") (hcf : s.current_file ≠ "")
    (hlm : LinesParsable (llmIssuesOf o "security" s.current_file)) :
    security_nodeE o s = some (security_node o s) ∧
    (∃ extra,
      (security_node o s).issues =
        s.issues ++ (llmIssuesOf o "security" s.current_file ++ extra) ∧
      DedupSound (securityPatternIssue s.current_file)
        (llmIssuesOf o "security" s.current_file) extra ∧
      ∀ f ∈ o.findPat "security" s.current_file_content,
        ∃ y ∈ llmIssuesOf o "security" s.current_file ++ extra,
          (locLine y.location - f.line_number).natAbs ≤ 2) ∧
    (security_nodeE scen6O scen6S =
      some (security_node scen6O scen6S) ∧
    (security_node scen6O scen6S).issues.map (fun i => i.location) =
      ["app.py:10"]) := by
  refine ⟨security_nodeE_eq o s hlm, ?_, by decide⟩
  obtain ⟨extra, hfold, hsound⟩ := dedup_fold_shape
    (securityPatternIssue s.current_file)
    (o.findPat "security" s.current_file_content)
    (llmIssuesOf o "security" s.current_file)
  refine ⟨extra, ?_, hsound, ?_⟩
  · unfold security_node
    rw [if_neg (not_or.mpr ⟨hck, hcf⟩)]
    dsimp only
    rw [hfold]
  · intro f hf
    obtain ⟨y, hy, hnear⟩ := dedup_fold_coverage _
      (securityPatternIssue_locLine s.current_file) _
      (llmIssuesOf o "security" s.current_file) f hf
    rw [hfold] at hy
    exact ⟨y, hy, hnear⟩

theorem C6_dedup_witness :
    scen6S.current_file_content ≠ "" ∧ scen6S.current_file ≠ "" ∧
    LinesParsable (llmIssuesOf scen6O "security" scen6S.current_file) ∧
    (security_nodeE scen6O scen6S = some (security_node scen6O scen6S) ∧
    (∃ extra,
      (security_node scen6O scen6S).issues =
        scen6S.issues ++
          (llmIssuesOf scen6O "security" scen6S.current_file ++ extra) ∧
      DedupSound (securityPatternIssue scen6S.current_file)
        (llmIssuesOf scen6O "security" scen6S.current_file) extra ∧
      ∀ f ∈ scen6O.findPat "security" scen6S.current_file_content,
        ∃ y ∈ llmIssuesOf scen6O "security" scen6S.current_file ++ extra,
          (locLine y.location - f.line_number).natAbs ≤ 2) ∧
    (security_nodeE scen6O scen6S =
      some (security_node scen6O scen6S) ∧
    (security_node scen6O scen6S).issues.map (fun i => i.location) =
      ["app.py:10"])) :=
  ⟨by decide, by decide, by decide,
    C6_dedup scen6O scen6S (by decide) (by decide) (by decide)⟩

/-- C7: appending one critical-risk issue to any issue list never increases
the aggregator's health score, whatever the processed-file count. -/
theorem C7_health_score_monotone (issues : List IssueRec) (n : Nat)
    (i : IssueRec) (hc : i.risk_level = "critical") :
    calculate_health_score (issues ++ [i]) n ≤
      calculate_health_score issues n :=
  calculate_health_score_critical_mono issues n i hc

theorem C7_health_score_monotone_witness :
    criticalIssue.risk_level = "critical" ∧
    calculate_health_score ([] ++ [criticalIssue]) 1 ≤
      calculate_health_score [] 1 :=
  ⟨rfl, C7_health_score_monotone [] 1 criticalIssue rfl⟩

/-- C8: for every issue list and file count, the aggregator's health score
lies in `[0, 100]`. -/
theorem C8_health_score_bounds (issues : List IssueRec) (n : Nat) :
    0 ≤ calculate_health_score issues n ∧
      calculate_health_score issues n ≤ 100 :=
  calculate_health_score_bounds issues n

/-- C9: the collaborator-response parser is total — every input funnels
through `_convert_to_issue_format` of some item list, so the caller always
receives a list — and empty or non-JSON input yields `[]`.  The smart-quote
branch of the sanitizing tier, however, is corrupted in the source: the
response `[\x7b“title”: “Curly”\x7d]` differing from a parseable one only in
its smart quotes yields `[]` where the straight-quoted variant yields a
candidate. -/
theorem C9_parser_tiers :
    (∀ r fp t, ∃ items, parse_llm_issues r fp t =
      convertToIssueFormat items fp t) ∧
    parse_llm_issues "" "f.py" "security" = [] ∧
    parse_llm_issues "no structured payload" "f.py" "security" = [] ∧
    parse_llm_issues straightResp "f.py" "security" ≠ [] ∧
    parse_llm_issues curlyResp "f.py" "security" = [] := by
  refine ⟨parse_llm_issues_shape, by decide, by decide, by decide, by decide⟩

/-- C10 counterpart: a JSON boolean `line_number` survives the
`isinstance(…, int)` check (Python booleans are ints), so the location is
rendered `f.py:True` — not of the form `<path>:<integer>`. -/
theorem C10_counterexample :
    (parse_llm_issues boolLineResp "f.py" "security").map
      (fun i => i.location) = ["f.py:True"] := by
  decide

/-- C10 (amended): every candidate issue the parser returns is normalised —
risk level in the four-member enum (defaulting to medium), non-empty title
of at most 200 characters, non-empty description and solution, snippet of at
most 500 characters — and its location is `<path>:<r>` where `r` renders an
int-like value: an integer (defaulting to 1) or a Python boolean, since
booleans pass the source's integer check. -/
theorem C10_normalised (i : IssueRec) (r fp t : String)
    (h : i ∈ parse_llm_issues r fp t) :
    i.risk_level ∈ ["critical", "high", "medium", "low"] ∧
    i.title ≠ "" ∧ i.title.length ≤ 200 ∧
    i.description ≠ "" ∧ i.solution ≠ "" ∧
    i.code_snippet.length ≤ 500 ∧
    ∃ v : PyIntLike, i.location = fp ++ ":" ++ v.render := by
  obtain ⟨items, heq⟩ := parse_llm_issues_shape r fp t
  rw [heq] at h
  obtain ⟨kvs, rfl⟩ := mem_convertToIssueFormat h
  exact convertOne_normalised kvs fp t

theorem C10_normalised_witness :
    c10i ∈ parse_llm_issues goodResp "f.py" "security" ∧
    (c10i.risk_level ∈ ["critical", "high", "medium", "low"] ∧
      c10i.title ≠ "" ∧ c10i.title.length ≤ 200 ∧
      c10i.description ≠ "" ∧ c10i.solution ≠ "" ∧
      c10i.code_snippet.length ≤ 500 ∧
      ∃ v : PyIntLike, c10i.location = "f.py" ++ ":" ++ v.render) :=
  ⟨by decide, C10_normalised c10i goodResp "f.py" "security" (by decide)⟩

end CodeAnalysis
